import Mathlib

/-!
# Options strategy finder: a shallow embedding

This file embeds the scan API of the options-strategy-finder repository
(`pages/api/scan.ts`, the single source file) and proves properties of it.

Embedding conventions:

* JavaScript numbers that can flow through a failed lookup are modelled as
  `Option ℚ`: `none` stands for the JavaScript `NaN`/`undefined` that arises
  when `expirations[0]` is read from an empty list (every arithmetic
  operation propagates `none`, and every comparison with `none` is `false`,
  exactly as JS comparisons with `NaN`).  All other synthesizer arithmetic
  is exact rational arithmetic.
* `Math.floor` and `Math.round` on this rational fragment are `Rat.floor`
  based (`Math.round x = floor (x + 1/2)`, which is JS round-half-up).
* The transcendental Black-Scholes pricing function
  (`calculateOptionPrice`) is embedded over `ℝ` further below, with the
  per-call `Math.random()` draw passed explicitly as `u ∈ [0,1)`.  The
  strategy synthesizer does not depend on the numeric content of the
  quotes it receives, so it is parameterised by an abstract pricing
  routine `Pricer` (one call index per source call site); theorems about
  the synthesizer quantify over the pricer, and theorems about the pricing
  formula itself use the `ℝ` embedding.
* `new Date()` is modelled as an integer day number `todayDay` (with day 0
  a Thursday, as the JS epoch 1970-01-01 is) plus a time-of-day fraction
  `frac ∈ [0,1)`; day-of-week is `(day + 4) % 7` as in `Date.getDay`.
  The day number of the 15th of the n-th month after the current one
  (used by the monthly-expiration loop) is an abstract calendar parameter
  `monthStart : ℕ → ℤ`; all calendar properties are proved for every such
  function, hence in particular for the Gregorian one.
* Every `Math.random()` jitter of the synthesizer is an explicit parameter
  (field of `Jitters`), one per independent draw in the source.
* The `description` strings and the `ticker` label (used only inside
  them) are presentational and not modelled; no claim mentions them.
-/

namespace OptionsScan

/-! ## JS-number helpers (`Option ℚ`, `none` = NaN/undefined) -/

/-- Addition on possibly-NaN JS numbers. -/
def oadd (a b : Option ℚ) : Option ℚ :=
  match a, b with
  | some x, some y => some (x + y)
  | _, _ => none

/-- Subtraction on possibly-NaN JS numbers. -/
def osub (a b : Option ℚ) : Option ℚ :=
  match a, b with
  | some x, some y => some (x - y)
  | _, _ => none

/-- Multiplication on possibly-NaN JS numbers. -/
def omul (a b : Option ℚ) : Option ℚ :=
  match a, b with
  | some x, some y => some (x * y)
  | _, _ => none

/-- Negation on possibly-NaN JS numbers. -/
def oneg (a : Option ℚ) : Option ℚ := a.map (fun x => -x)

/-- JS `Math.abs` (NaN-propagating). -/
def oabs (a : Option ℚ) : Option ℚ := a.map (fun x => |x|)

/-- JS `Math.max` on two arguments (NaN-propagating). -/
def omax (a b : Option ℚ) : Option ℚ :=
  match a, b with
  | some x, some y => some (max x y)
  | _, _ => none

/-- JS `<=` comparison: any comparison with NaN is false. -/
def oleB (a b : Option ℚ) : Bool :=
  match a, b with
  | some x, some y => decide (x ≤ y)
  | _, _ => false

/-- JS `<` comparison: any comparison with NaN is false. -/
def oltB (a b : Option ℚ) : Bool :=
  match a, b with
  | some x, some y => decide (x < y)
  | _, _ => false

/-- JS `>` comparison: any comparison with NaN is false. -/
def ogtB (a b : Option ℚ) : Bool :=
  match a, b with
  | some x, some y => decide (y < x)
  | _, _ => false

/-- JS `Math.floor` on the rational fragment. -/
def jsFloor (x : ℚ) : ℤ := Rat.floor x

/-- JS `Math.round` (round half towards positive infinity). -/
def jsRound (x : ℚ) : ℤ := Rat.floor (x + 1/2)

/-- JS `Math.round` lifted to possibly-NaN numbers. -/
def oround (a : Option ℚ) : Option ℚ := a.map (fun x => ((jsRound x : ℤ) : ℚ))

/-- Embedding of `strikes.find(p) || strikes[i]`: the first ladder element
satisfying `p`, else the (possibly out-of-range) fixed-index fallback.
Ladder elements are strictly positive (see `generateStrikes`), so the found
value is never the JS-falsy `0` and `||` is exactly `Option.orElse`. -/
def jsFind (l : List ℚ) (p : ℚ → Bool) (i : ℕ) : Option ℚ :=
  (l.find? p).orElse (fun _ => l.get? i)

/-! ## Strike ladder (source `generateStrikes`, lines 438-461) -/

/-- Interval selection by spot price band (source lines 443-447). -/
def interval (currentPrice : ℚ) : ℚ :=
  if currentPrice < 50 then 2.5
  else if currentPrice < 100 then 5
  else if currentPrice < 200 then 5
  else if currentPrice < 500 then 10
  else 25

/-- Ladder construction from the rounded base-strike index `k` and the
interval `d`: the loop `for i in [-6,6]` pushes `base + i*d`, keeps the
positive ones, and the final `.sort((a,b) => a-b)` sorts ascending
(embedded as the stable `mergeSort`, a no-op here since the loop already
produces an ascending list). -/
def strikesFrom (k : ℤ) (d : ℚ) : List ℚ :=
  (((List.range 13).map (fun j : ℕ => (k : ℚ) * d + ((j : ℚ) - 6) * d)).filter
    (fun s => decide (0 < s))).mergeSort (fun a b => decide (a ≤ b))

/-- Source `generateStrikes`: base strike is `spot` rounded to the nearest
interval multiple. -/
def generateStrikes (currentPrice : ℚ) : List ℚ :=
  strikesFrom (jsRound (currentPrice / interval currentPrice)) (interval currentPrice)

/-- Arithmetic progression `[b, b+d, ..., b+(n-1)d]`, the specification
vehicle for the strike ladder. -/
def arithList (b d : ℚ) : ℕ → List ℚ
  | 0 => []
  | n + 1 => b :: arithList (b + d) d n

/-! ## Expiration calendar (source `getExpirationDates`, lines 399-435) -/

/-- JS `Date.getDay` on a day number (day 0, the epoch, is a Thursday). -/
def getDay (d : ℤ) : ℤ := (d + 4) % 7

/-- Closed form of the `while (expDate.getDay() !== 5) expDate.setDate(+1)`
loop: the first day on or after `d` whose day-of-week is Friday
(`d % 7 = 1` in epoch-day terms). -/
def nextFriday (d : ℤ) : ℤ := d + (1 - d) % 7

/-- Source `getExpirationDates`: twelve weekly Friday candidates (today plus
`7*weeks` days, advanced to a Friday; the candidate instant keeps today's
time of day, so its DTE floor is exact), then three monthly candidates (the
15th of the target month at midnight, advanced to a Friday), each kept when
its integer-floored DTE lies in `[minDte, maxDte]`; the first three
qualifying dates are returned. -/
def getExpirationDates (minDte maxDte todayDay : ℤ) (frac : ℚ) (monthStart : ℕ → ℤ) :
    List ℤ :=
  let now : ℚ := (todayDay : ℚ) + frac
  let weekly := (List.range 12).filterMap (fun w =>
    let expDate := nextFriday (todayDay + 7 * ((w : ℤ) + 1))
    let dte := jsFloor (((expDate : ℚ) + frac) - now)
    if minDte ≤ dte ∧ dte ≤ maxDte then some expDate else none)
  let monthly := (List.range 3).filterMap (fun m =>
    let expDate := nextFriday (monthStart (m + 1))
    let dte := jsFloor ((expDate : ℚ) - now)
    if minDte ≤ dte ∧ dte ≤ maxDte then some expDate else none)
  (weekly ++ monthly).take 3

/-! ## Data model (source interfaces `Greeks`, `StrategyLeg`, `Strategy`) -/

/-- Greeks record; fields are possibly-NaN JS numbers. -/
structure Greeks where
  delta : Option ℚ
  gamma : Option ℚ
  theta : Option ℚ
  vega : Option ℚ
deriving DecidableEq

/-- Price-and-greeks record returned by the pricing routine. -/
structure JsQuote where
  price : Option ℚ
  greeks : Greeks
deriving DecidableEq

/-- One leg of a strategy (source `StrategyLeg`; `expiry` is a calendar day
number, `none` when the expiration list was empty and `expirations[0]` is
`undefined`). -/
structure StrategyLeg where
  type : String
  action : String
  strike : Option ℚ
  expiry : Option ℤ
  quantity : ℕ
  premium : Option ℚ
  delta : Option ℚ
  gamma : Option ℚ
  theta : Option ℚ
  vega : Option ℚ
deriving DecidableEq

/-- Source `Strategy` record (minus the presentational `description`). -/
structure Strategy where
  id : String
  name : String
  type : String
  confidence : ℚ
  maxProfit : Option ℚ
  maxLoss : Option ℚ
  capitalRequired : Option ℚ
  probabilityOfProfit : ℚ
  legs : List StrategyLeg
  greeks : Greeks
  breakEvenPoints : List (Option ℚ)
deriving DecidableEq

/-- Abstract pricing routine: one application per source call site of
`calculateOptionPrice(currentPrice, strike, dte, iv, 0.05, isCall)`.  The
first argument is the call index (0-13 in source order), distinguishing the
independent `Math.random()` market adjustment inside each call; the
remaining arguments are spot, strike, dte, volatility, risk-free rate and
the call/put flag. -/
@[reducible]
def Pricer : Type :=
  ℕ → ℚ → Option ℚ → Option ℤ → ℚ → ℚ → Bool → JsQuote

/-- Faithfulness condition satisfied by the real pricing routine: on a
well-defined strike and dte the returned price is a real number, never NaN
(the source returns `max(..., 0.05)` or a nonnegative intrinsic value). -/
def PricerDefined (P : Pricer) : Prop :=
  ∀ (i : ℕ) (S : ℚ) (K : ℚ) (T : ℤ) (iv r : ℚ) (c : Bool),
    ((P i S (some K) (some T) iv r c).price).isSome = true

/-- One field per independent `Math.random()` draw of the synthesizer. -/
structure Jitters where
  ivDraw : ℚ
  confBullPut : ℚ
  popBullPut : ℚ
  confIronCondor : ℚ
  popIronCondor : ℚ
  confCsp : ℚ
  popCsp : ℚ
  confStraddle : ℚ
  popStraddle : ℚ
  confCoveredCall : ℚ
  popCoveredCall : ℚ
  confBearCall : ℚ
  popBearCall : ℚ
  confBullCall : ℚ
  popBullCall : ℚ

/-- Each `Math.random()` draw lies in `[0, 1)`. -/
def Jitters.InRange (J : Jitters) : Prop :=
  (0 ≤ J.ivDraw ∧ J.ivDraw < 1) ∧
  (0 ≤ J.confBullPut ∧ J.confBullPut < 1) ∧
  (0 ≤ J.popBullPut ∧ J.popBullPut < 1) ∧
  (0 ≤ J.confIronCondor ∧ J.confIronCondor < 1) ∧
  (0 ≤ J.popIronCondor ∧ J.popIronCondor < 1) ∧
  (0 ≤ J.confCsp ∧ J.confCsp < 1) ∧
  (0 ≤ J.popCsp ∧ J.popCsp < 1) ∧
  (0 ≤ J.confStraddle ∧ J.confStraddle < 1) ∧
  (0 ≤ J.popStraddle ∧ J.popStraddle < 1) ∧
  (0 ≤ J.confCoveredCall ∧ J.confCoveredCall < 1) ∧
  (0 ≤ J.popCoveredCall ∧ J.popCoveredCall < 1) ∧
  (0 ≤ J.confBearCall ∧ J.confBearCall < 1) ∧
  (0 ≤ J.popBearCall ∧ J.popBearCall < 1) ∧
  (0 ≤ J.confBullCall ∧ J.confBullCall < 1) ∧
  (0 ≤ J.popBullCall ∧ J.popBullCall < 1)

/-- Ambient inputs of one `generateStrategies` invocation: the pricing
routine, the random draws, the spot price, the DTE window, and the clock
and calendar state. -/
structure ScanEnv where
  P : Pricer
  J : Jitters
  currentPrice : ℚ
  minDte : ℤ
  maxDte : ℤ
  todayDay : ℤ
  frac : ℚ
  monthStart : ℕ → ℤ

/-- Current instant, in days since the epoch. -/
def ScanEnv.now (e : ScanEnv) : ℚ := (e.todayDay : ℚ) + e.frac

/-- Expiration candidates of this invocation. -/
def ScanEnv.expirations (e : ScanEnv) : List ℤ :=
  getExpirationDates e.minDte e.maxDte e.todayDay e.frac e.monthStart

/-- Source `expirations[0]`: `none` when the calendar came back empty. -/
def ScanEnv.primaryExpiry (e : ScanEnv) : Option ℤ := e.expirations.head?

/-- Source `dte` (line 59): floored day difference between the re-parsed
primary expiry (an ISO date string, hence midnight of that day) and now;
NaN (`none`) when the calendar is empty. -/
def ScanEnv.dte (e : ScanEnv) : Option ℤ :=
  e.primaryExpiry.map (fun x => jsFloor ((x : ℚ) - e.now))

/-- Source `iv = 0.35 + Math.random() * 0.15` (line 62). -/
def ScanEnv.iv (e : ScanEnv) : ℚ := 0.35 + e.J.ivDraw * 0.15

/-! ## Strike selection per template (source lines 67-68, 121-124, 162,
191, 222, 248-249, 299-300) -/

/-- Sell-put strike of the Bull Put Spread: first strike below `0.93*spot`,
else ladder index 2. -/
def bullPutShortStrike (spot : ℚ) : Option ℚ :=
  jsFind (generateStrikes spot) (fun s => decide (s < spot * 0.93)) 2

/-- Buy-put strike of the Bull Put Spread: first strike below the short
strike minus 10, else ladder index 1. -/
def bullPutLongStrike (spot : ℚ) : Option ℚ :=
  jsFind (generateStrikes spot) (fun s => oltB (some s) (osub (bullPutShortStrike spot) (some 10))) 1

/-- Sell-call strike of the Iron Condor: first strike above `1.07*spot`,
else index 6. -/
def icCallShortStrike (spot : ℚ) : Option ℚ :=
  jsFind (generateStrikes spot) (fun s => decide (spot * 1.07 < s)) 6

/-- Buy-call strike of the Iron Condor: first strike above the short call
plus 10, else index 7. -/
def icCallLongStrike (spot : ℚ) : Option ℚ :=
  jsFind (generateStrikes spot) (fun s => ogtB (some s) (oadd (icCallShortStrike spot) (some 10))) 7

/-- Sell-put strike of the Iron Condor: first strike below `0.93*spot`,
else index 2. -/
def icPutShortStrike (spot : ℚ) : Option ℚ :=
  jsFind (generateStrikes spot) (fun s => decide (s < spot * 0.93)) 2

/-- Buy-put strike of the Iron Condor: first strike below the short put
minus 10, else index 1. -/
def icPutLongStrike (spot : ℚ) : Option ℚ :=
  jsFind (generateStrikes spot) (fun s => oltB (some s) (osub (icPutShortStrike spot) (some 10))) 1

/-- Cash Secured Put strike: first strike below `0.95*spot`, else index 3. -/
def cspStrike (spot : ℚ) : Option ℚ :=
  jsFind (generateStrikes spot) (fun s => decide (s < spot * 0.95)) 3

/-- Long Straddle strike: first strike within 5 of spot, else index 4. -/
def straddleStrike (spot : ℚ) : Option ℚ :=
  jsFind (generateStrikes spot) (fun s => decide (|s - spot| < 5)) 4

/-- Covered Call strike: first strike above `1.05*spot`, else index 6. -/
def ccStrike (spot : ℚ) : Option ℚ :=
  jsFind (generateStrikes spot) (fun s => decide (spot * 1.05 < s)) 6

/-- Sell-call strike of the Bear Call Spread: first strike above
`1.02*spot`, else index 5. -/
def bearCallShortStrike (spot : ℚ) : Option ℚ :=
  jsFind (generateStrikes spot) (fun s => decide (spot * 1.02 < s)) 5

/-- Buy-call strike of the Bear Call Spread: first strike above the short
call plus 10, else index 6. -/
def bearCallLongStrike (spot : ℚ) : Option ℚ :=
  jsFind (generateStrikes spot) (fun s => ogtB (some s) (oadd (bearCallShortStrike spot) (some 10))) 6

/-- Buy-call strike of the Bull Call Spread: first strike above
`1.02*spot`, else index 5. -/
def bullCallLongStrike (spot : ℚ) : Option ℚ :=
  jsFind (generateStrikes spot) (fun s => decide (spot * 1.02 < s)) 5

/-- Sell-call strike of the Bull Call Spread: first strike above the long
call plus 10, else index 6. -/
def bullCallShortStrike (spot : ℚ) : Option ℚ :=
  jsFind (generateStrikes spot) (fun s => ogtB (some s) (oadd (bullCallLongStrike spot) (some 10))) 6

/-! ## Leg quotes and net credits (call indices 0-13 in source order) -/

/-- Quote for the sold put of the Bull Put Spread (source line 70). -/
def shortPutPrice (e : ScanEnv) : JsQuote :=
  e.P 0 e.currentPrice (bullPutShortStrike e.currentPrice) e.dte e.iv 0.05 false

/-- Quote for the bought put of the Bull Put Spread (source line 71). -/
def longPutPrice (e : ScanEnv) : JsQuote :=
  e.P 1 e.currentPrice (bullPutLongStrike e.currentPrice) e.dte e.iv 0.05 false

/-- Source `bullPutCredit` (line 73). -/
def bullPutCredit (e : ScanEnv) : Option ℚ :=
  osub (shortPutPrice e).price (longPutPrice e).price

/-- Source `bullPutMaxLoss` (line 74). -/
def bullPutMaxLoss (e : ScanEnv) : Option ℚ :=
  osub (osub (bullPutShortStrike e.currentPrice) (bullPutLongStrike e.currentPrice))
    (bullPutCredit e)

/-- Iron Condor sold-call quote (source line 126). -/
def icCallShort (e : ScanEnv) : JsQuote :=
  e.P 2 e.currentPrice (icCallShortStrike e.currentPrice) e.dte e.iv 0.05 true

/-- Iron Condor bought-call quote (source line 127). -/
def icCallLong (e : ScanEnv) : JsQuote :=
  e.P 3 e.currentPrice (icCallLongStrike e.currentPrice) e.dte e.iv 0.05 true

/-- Iron Condor sold-put quote (source line 128). -/
def icPutShort (e : ScanEnv) : JsQuote :=
  e.P 4 e.currentPrice (icPutShortStrike e.currentPrice) e.dte e.iv 0.05 false

/-- Iron Condor bought-put quote (source line 129). -/
def icPutLong (e : ScanEnv) : JsQuote :=
  e.P 5 e.currentPrice (icPutLongStrike e.currentPrice) e.dte e.iv 0.05 false

/-- Source `icCredit` (line 131). -/
def icCredit (e : ScanEnv) : Option ℚ :=
  oadd (osub (icCallShort e).price (icCallLong e).price)
    (osub (icPutShort e).price (icPutLong e).price)

/-- Source `icMaxLoss` (line 132). -/
def icMaxLoss (e : ScanEnv) : Option ℚ :=
  osub (omax (osub (icCallLongStrike e.currentPrice) (icCallShortStrike e.currentPrice))
      (osub (icPutShortStrike e.currentPrice) (icPutLongStrike e.currentPrice)))
    (icCredit e)

/-- Cash Secured Put quote (source line 163). -/
def cspOption (e : ScanEnv) : JsQuote :=
  e.P 6 e.currentPrice (cspStrike e.currentPrice) e.dte e.iv 0.05 false

/-- Long Straddle call quote, priced at `iv + 0.05` (source line 193). -/
def callOption (e : ScanEnv) : JsQuote :=
  e.P 7 e.currentPrice (straddleStrike e.currentPrice) e.dte (e.iv + 0.05) 0.05 true

/-- Long Straddle put quote, priced at `iv + 0.05` (source line 194). -/
def putOption (e : ScanEnv) : JsQuote :=
  e.P 8 e.currentPrice (straddleStrike e.currentPrice) e.dte (e.iv + 0.05) 0.05 false

/-- Source `straddleCost` (line 196). -/
def straddleCost (e : ScanEnv) : Option ℚ :=
  oadd (callOption e).price (putOption e).price

/-- Covered Call quote (source line 223). -/
def ccOption (e : ScanEnv) : JsQuote :=
  e.P 9 e.currentPrice (ccStrike e.currentPrice) e.dte e.iv 0.05 true

/-- Bear Call Spread sold-call quote (source line 251). -/
def bearCallShort (e : ScanEnv) : JsQuote :=
  e.P 10 e.currentPrice (bearCallShortStrike e.currentPrice) e.dte e.iv 0.05 true

/-- Bear Call Spread bought-call quote (source line 252). -/
def bearCallLong (e : ScanEnv) : JsQuote :=
  e.P 11 e.currentPrice (bearCallLongStrike e.currentPrice) e.dte e.iv 0.05 true

/-- Source `bearCallCredit` (line 254). -/
def bearCallCredit (e : ScanEnv) : Option ℚ :=
  osub (bearCallShort e).price (bearCallLong e).price

/-- Source `bearCallMaxLoss` (line 255). -/
def bearCallMaxLoss (e : ScanEnv) : Option ℚ :=
  osub (osub (bearCallLongStrike e.currentPrice) (bearCallShortStrike e.currentPrice))
    (bearCallCredit e)

/-- Bull Call Spread bought-call quote (source line 302). -/
def bullCallLong (e : ScanEnv) : JsQuote :=
  e.P 12 e.currentPrice (bullCallLongStrike e.currentPrice) e.dte e.iv 0.05 true

/-- Bull Call Spread sold-call quote (source line 303). -/
def bullCallShort (e : ScanEnv) : JsQuote :=
  e.P 13 e.currentPrice (bullCallShortStrike e.currentPrice) e.dte e.iv 0.05 true

/-- Source `bullCallDebit` (line 305). -/
def bullCallDebit (e : ScanEnv) : Option ℚ :=
  osub (bullCallLong e).price (bullCallShort e).price

/-- Source `bullCallMaxProfit` (line 306). -/
def bullCallMaxProfit (e : ScanEnv) : Option ℚ :=
  osub (osub (bullCallShortStrike e.currentPrice) (bullCallLongStrike e.currentPrice))
    (bullCallDebit e)

/-! ## The seven strategy records (source lines 80-117, 135-158, 165-188,
198-219, 225-245, 258-295, 309-346) -/

/-- Bull Put Spread record (source id '1'). -/
def bullPutSpread (e : ScanEnv) : Strategy where
  id := "1"
  name := "Bull Put Spread"
  type := "bullish"
  confidence := 72.5 + e.J.confBullPut * 5
  maxProfit := oround (omul (bullPutCredit e) (some 100))
  maxLoss := oneg (oround (omul (bullPutMaxLoss e) (some 100)))
  capitalRequired := oround (oabs (omul (bullPutMaxLoss e) (some 100)))
  probabilityOfProfit := 0.68 + e.J.popBullPut * 0.1
  legs := [
    { type := "put", action := "sell", strike := bullPutShortStrike e.currentPrice,
      expiry := e.primaryExpiry, quantity := 1, premium := (shortPutPrice e).price,
      delta := (shortPutPrice e).greeks.delta, gamma := (shortPutPrice e).greeks.gamma,
      theta := (shortPutPrice e).greeks.theta, vega := (shortPutPrice e).greeks.vega },
    { type := "put", action := "buy", strike := bullPutLongStrike e.currentPrice,
      expiry := e.primaryExpiry, quantity := 1, premium := (longPutPrice e).price,
      delta := (longPutPrice e).greeks.delta, gamma := (longPutPrice e).greeks.gamma,
      theta := (longPutPrice e).greeks.theta, vega := (longPutPrice e).greeks.vega }]
  greeks :=
    { delta := osub (shortPutPrice e).greeks.delta (longPutPrice e).greeks.delta,
      gamma := osub (shortPutPrice e).greeks.gamma (longPutPrice e).greeks.gamma,
      theta := osub (shortPutPrice e).greeks.theta (longPutPrice e).greeks.theta,
      vega := osub (shortPutPrice e).greeks.vega (longPutPrice e).greeks.vega }
  breakEvenPoints := [osub (bullPutShortStrike e.currentPrice) (bullPutCredit e)]

/-- Iron Condor record (source id '2'). -/
def ironCondor (e : ScanEnv) : Strategy where
  id := "2"
  name := "Iron Condor"
  type := "neutral"
  confidence := 65.2 + e.J.confIronCondor * 5
  maxProfit := oround (omul (icCredit e) (some 100))
  maxLoss := oneg (oround (omul (icMaxLoss e) (some 100)))
  capitalRequired := oround (oabs (omul (icMaxLoss e) (some 100)))
  probabilityOfProfit := 0.58 + e.J.popIronCondor * 0.1
  legs := [
    { type := "call", action := "sell", strike := icCallShortStrike e.currentPrice,
      expiry := e.primaryExpiry, quantity := 1, premium := (icCallShort e).price,
      delta := (icCallShort e).greeks.delta, gamma := (icCallShort e).greeks.gamma,
      theta := (icCallShort e).greeks.theta, vega := (icCallShort e).greeks.vega },
    { type := "call", action := "buy", strike := icCallLongStrike e.currentPrice,
      expiry := e.primaryExpiry, quantity := 1, premium := (icCallLong e).price,
      delta := (icCallLong e).greeks.delta, gamma := (icCallLong e).greeks.gamma,
      theta := (icCallLong e).greeks.theta, vega := (icCallLong e).greeks.vega },
    { type := "put", action := "sell", strike := icPutShortStrike e.currentPrice,
      expiry := e.primaryExpiry, quantity := 1, premium := (icPutShort e).price,
      delta := (icPutShort e).greeks.delta, gamma := (icPutShort e).greeks.gamma,
      theta := (icPutShort e).greeks.theta, vega := (icPutShort e).greeks.vega },
    { type := "put", action := "buy", strike := icPutLongStrike e.currentPrice,
      expiry := e.primaryExpiry, quantity := 1, premium := (icPutLong e).price,
      delta := (icPutLong e).greeks.delta, gamma := (icPutLong e).greeks.gamma,
      theta := (icPutLong e).greeks.theta, vega := (icPutLong e).greeks.vega }]
  greeks :=
    { delta := oadd (osub (icCallShort e).greeks.delta (icCallLong e).greeks.delta)
        (osub (icPutShort e).greeks.delta (icPutLong e).greeks.delta),
      gamma := oadd (osub (icCallShort e).greeks.gamma (icCallLong e).greeks.gamma)
        (osub (icPutShort e).greeks.gamma (icPutLong e).greeks.gamma),
      theta := oadd (osub (icCallShort e).greeks.theta (icCallLong e).greeks.theta)
        (osub (icPutShort e).greeks.theta (icPutLong e).greeks.theta),
      vega := oadd (osub (icCallShort e).greeks.vega (icCallLong e).greeks.vega)
        (osub (icPutShort e).greeks.vega (icPutLong e).greeks.vega) }
  breakEvenPoints := [osub (icPutShortStrike e.currentPrice) (icCredit e),
    oadd (icCallShortStrike e.currentPrice) (icCredit e)]

/-- Cash Secured Put record (source id '3'). -/
def cashSecuredPut (e : ScanEnv) : Strategy where
  id := "3"
  name := "Cash Secured Put"
  type := "bullish"
  confidence := 69.8 + e.J.confCsp * 5
  maxProfit := oround (omul (cspOption e).price (some 100))
  maxLoss := oneg (oround (omul (osub (cspStrike e.currentPrice) (cspOption e).price) (some 100)))
  capitalRequired := oround (omul (cspStrike e.currentPrice) (some 100))
  probabilityOfProfit := 0.65 + e.J.popCsp * 0.1
  legs := [
    { type := "put", action := "sell", strike := cspStrike e.currentPrice,
      expiry := e.primaryExpiry, quantity := 1, premium := (cspOption e).price,
      delta := (cspOption e).greeks.delta, gamma := (cspOption e).greeks.gamma,
      theta := (cspOption e).greeks.theta, vega := (cspOption e).greeks.vega }]
  greeks := (cspOption e).greeks
  breakEvenPoints := [osub (cspStrike e.currentPrice) (cspOption e).price]

/-- Long Straddle record (source id '4'); `maxProfit` is the large sentinel
for an unbounded payoff. -/
def longStraddle (e : ScanEnv) : Strategy where
  id := "4"
  name := "Long Straddle"
  type := "volatility"
  confidence := 58.5 + e.J.confStraddle * 5
  maxProfit := some 99999
  maxLoss := oneg (oround (omul (straddleCost e) (some 100)))
  capitalRequired := oround (omul (straddleCost e) (some 100))
  probabilityOfProfit := 0.45 + e.J.popStraddle * 0.1
  legs := [
    { type := "call", action := "buy", strike := straddleStrike e.currentPrice,
      expiry := e.primaryExpiry, quantity := 1, premium := (callOption e).price,
      delta := (callOption e).greeks.delta, gamma := (callOption e).greeks.gamma,
      theta := (callOption e).greeks.theta, vega := (callOption e).greeks.vega },
    { type := "put", action := "buy", strike := straddleStrike e.currentPrice,
      expiry := e.primaryExpiry, quantity := 1, premium := (putOption e).price,
      delta := (putOption e).greeks.delta, gamma := (putOption e).greeks.gamma,
      theta := (putOption e).greeks.theta, vega := (putOption e).greeks.vega }]
  greeks :=
    { delta := oadd (callOption e).greeks.delta (putOption e).greeks.delta,
      gamma := oadd (callOption e).greeks.gamma (putOption e).greeks.gamma,
      theta := oadd (callOption e).greeks.theta (putOption e).greeks.theta,
      vega := oadd (callOption e).greeks.vega (putOption e).greeks.vega }
  breakEvenPoints := [osub (straddleStrike e.currentPrice) (straddleCost e),
    oadd (straddleStrike e.currentPrice) (straddleCost e)]

/-- Covered Call record (source id '5'); the aggregate delta adds the +1 of
the owned stock. -/
def coveredCall (e : ScanEnv) : Strategy where
  id := "5"
  name := "Covered Call"
  type := "neutral"
  confidence := 66.7 + e.J.confCoveredCall * 5
  maxProfit := oround (omul (oadd (osub (ccStrike e.currentPrice) (some e.currentPrice))
    (ccOption e).price) (some 100))
  maxLoss := oneg (oround (omul (osub (some e.currentPrice) (ccOption e).price) (some 100)))
  capitalRequired := some ((jsRound (e.currentPrice * 100) : ℤ) : ℚ)
  probabilityOfProfit := 0.72 + e.J.popCoveredCall * 0.1
  legs := [
    { type := "call", action := "sell", strike := ccStrike e.currentPrice,
      expiry := e.primaryExpiry, quantity := 1, premium := (ccOption e).price,
      delta := (ccOption e).greeks.delta, gamma := (ccOption e).greeks.gamma,
      theta := (ccOption e).greeks.theta, vega := (ccOption e).greeks.vega }]
  greeks :=
    { delta := oadd (oneg (ccOption e).greeks.delta) (some 1),
      gamma := oneg (ccOption e).greeks.gamma,
      theta := oneg (ccOption e).greeks.theta,
      vega := oneg (ccOption e).greeks.vega }
  breakEvenPoints := [osub (some e.currentPrice) (ccOption e).price]

/-- Bear Call Spread record (source id '6'). -/
def bearCallSpread (e : ScanEnv) : Strategy where
  id := "6"
  name := "Bear Call Spread"
  type := "bearish"
  confidence := 63.5 + e.J.confBearCall * 5
  maxProfit := oround (omul (bearCallCredit e) (some 100))
  maxLoss := oneg (oround (omul (bearCallMaxLoss e) (some 100)))
  capitalRequired := oround (oabs (omul (bearCallMaxLoss e) (some 100)))
  probabilityOfProfit := 0.62 + e.J.popBearCall * 0.1
  legs := [
    { type := "call", action := "sell", strike := bearCallShortStrike e.currentPrice,
      expiry := e.primaryExpiry, quantity := 1, premium := (bearCallShort e).price,
      delta := (bearCallShort e).greeks.delta, gamma := (bearCallShort e).greeks.gamma,
      theta := (bearCallShort e).greeks.theta, vega := (bearCallShort e).greeks.vega },
    { type := "call", action := "buy", strike := bearCallLongStrike e.currentPrice,
      expiry := e.primaryExpiry, quantity := 1, premium := (bearCallLong e).price,
      delta := (bearCallLong e).greeks.delta, gamma := (bearCallLong e).greeks.gamma,
      theta := (bearCallLong e).greeks.theta, vega := (bearCallLong e).greeks.vega }]
  greeks :=
    { delta := osub (bearCallShort e).greeks.delta (bearCallLong e).greeks.delta,
      gamma := osub (bearCallShort e).greeks.gamma (bearCallLong e).greeks.gamma,
      theta := osub (bearCallShort e).greeks.theta (bearCallLong e).greeks.theta,
      vega := osub (bearCallShort e).greeks.vega (bearCallLong e).greeks.vega }
  breakEvenPoints := [oadd (bearCallShortStrike e.currentPrice) (bearCallCredit e)]

/-- Bull Call Spread record (source id '7'). -/
def bullCallSpread (e : ScanEnv) : Strategy where
  id := "7"
  name := "Bull Call Spread"
  type := "bullish"
  confidence := 68.2 + e.J.confBullCall * 5
  maxProfit := oround (omul (bullCallMaxProfit e) (some 100))
  maxLoss := oneg (oround (omul (bullCallDebit e) (some 100)))
  capitalRequired := oround (omul (bullCallDebit e) (some 100))
  probabilityOfProfit := 0.58 + e.J.popBullCall * 0.1
  legs := [
    { type := "call", action := "buy", strike := bullCallLongStrike e.currentPrice,
      expiry := e.primaryExpiry, quantity := 1, premium := (bullCallLong e).price,
      delta := (bullCallLong e).greeks.delta, gamma := (bullCallLong e).greeks.gamma,
      theta := (bullCallLong e).greeks.theta, vega := (bullCallLong e).greeks.vega },
    { type := "call", action := "sell", strike := bullCallShortStrike e.currentPrice,
      expiry := e.primaryExpiry, quantity := 1, premium := (bullCallShort e).price,
      delta := (bullCallShort e).greeks.delta, gamma := (bullCallShort e).greeks.gamma,
      theta := (bullCallShort e).greeks.theta, vega := (bullCallShort e).greeks.vega }]
  greeks :=
    { delta := osub (bullCallLong e).greeks.delta (bullCallShort e).greeks.delta,
      gamma := osub (bullCallLong e).greeks.gamma (bullCallShort e).greeks.gamma,
      theta := osub (bullCallLong e).greeks.theta (bullCallShort e).greeks.theta,
      vega := osub (bullCallLong e).greeks.vega (bullCallShort e).greeks.vega }
  breakEvenPoints := [oadd (bullCallLongStrike e.currentPrice) (bullCallDebit e)]

/-- Source `generateStrategies` (lines 55-350): each template is pushed in
source order, subject to its inclusion test.  The Bull Put test is the
negated `if (bullPutCredit <= 0.05) skip`, so a NaN credit (empty
expiration calendar) passes it, exactly as in JS. -/
def generateStrategies (e : ScanEnv) : List Strategy :=
  (if oleB (bullPutCredit e) (some 0.05) then [] else [bullPutSpread e]) ++
  (if ogtB (icCredit e) (some 0.10) then [ironCondor e] else []) ++
  [cashSecuredPut e] ++
  [longStraddle e] ++
  [coveredCall e] ++
  (if ogtB (bearCallCredit e) (some 0.05) then [bearCallSpread e] else []) ++
  (if (ogtB (bullCallDebit e) (some 0) && ogtB (bullCallMaxProfit e) (some 0.10)) then
    [bullCallSpread e] else [])

/-! ## Risk profile filter and ranker (source handler, lines 579-599) -/

/-- Source risk-profile switch, confidence sort and truncation: the
`conservative` case keeps confidence at least 65 and non-volatility
category, `moderate` at least 60, `moderate_aggressive` at least 55;
`aggressive` and unrecognised profiles keep everything.  The JS
`sort((a,b) => b.confidence - a.confidence)` is a stable descending sort,
embedded as `mergeSort`; `slice(0, maxStrategies)` is `take`. -/
def selectStrategies (allStrategies : List Strategy) (riskProfile : String)
    (maxStrategies : ℕ) : List Strategy :=
  let filteredStrategies :=
    if riskProfile = "conservative" then
      allStrategies.filter (fun s => decide (65 ≤ s.confidence) && decide (s.type ≠ "volatility"))
    else if riskProfile = "moderate" then
      allStrategies.filter (fun s => decide (60 ≤ s.confidence))
    else if riskProfile = "moderate_aggressive" then
      allStrategies.filter (fun s => decide (55 ≤ s.confidence))
    else
      allStrategies
  (filteredStrategies.mergeSort (fun a b => decide (b.confidence ≤ a.confidence))).take
    maxStrategies

/-! ## Concrete fixtures used by witnesses and counterexamples -/

/-- Fixture pricing routine: a constant well-defined quote on well-defined
inputs, and the all-NaN quote when the strike or dte is NaN (the
NaN-propagation behaviour of the real JS routine). -/
def constPricer : Pricer := fun _ _ K T _ _ _ =>
  match K, T with
  | some _, some _ =>
    { price := some 1,
      greeks := { delta := some 0, gamma := some 0, theta := some 0, vega := some 0 } }
  | _, _ =>
    { price := none,
      greeks := { delta := none, gamma := none, theta := none, vega := none } }

/-- Fixture jitters: every draw is 0. -/
def zeroJitters : Jitters :=
  { ivDraw := 0, confBullPut := 0, popBullPut := 0, confIronCondor := 0,
    popIronCondor := 0, confCsp := 0, popCsp := 0, confStraddle := 0,
    popStraddle := 0, confCoveredCall := 0, popCoveredCall := 0,
    confBearCall := 0, popBearCall := 0, confBullCall := 0, popBullCall := 0 }

/-- Fixture month calendar: the 15th of the m-th month ahead lands on day
`14 + 31*m`. -/
def fixtureMonths : ℕ → ℤ := fun m => 14 + 31 * (m : ℤ)

/-- Fixture invocation whose DTE window `[200, 300]` excludes every weekly
and monthly candidate: the expiration calendar comes back empty. -/
def emptyCalEnv : ScanEnv :=
  { P := constPricer, J := zeroJitters, currentPrice := 100, minDte := 200,
    maxDte := 300, todayDay := 0, frac := 0, monthStart := fixtureMonths }

/-- Fixture invocation with the default DTE window `[30, 45]`, for which
the calendar is nonempty. -/
def normalEnv : ScanEnv :=
  { P := constPricer, J := zeroJitters, currentPrice := 100, minDte := 30,
    maxDte := 45, todayDay := 0, frac := 0, monthStart := fixtureMonths }

/-- Fixture strategy passing the conservative filter. -/
def sampleConservative : Strategy :=
  { id := "s1", name := "Sample A", type := "bullish", confidence := 70,
    maxProfit := some 100, maxLoss := some (-50), capitalRequired := some 50,
    probabilityOfProfit := 0.6, legs := [],
    greeks := { delta := some 0, gamma := some 0, theta := some 0, vega := some 0 },
    breakEvenPoints := [] }

/-- Fixture strategy of the volatility category. -/
def sampleVolatility : Strategy :=
  { id := "s2", name := "Sample B", type := "volatility", confidence := 80,
    maxProfit := some 100, maxLoss := some (-50), capitalRequired := some 50,
    probabilityOfProfit := 0.5, legs := [],
    greeks := { delta := some 0, gamma := some 0, theta := some 0, vega := some 0 },
    breakEvenPoints := [] }

/-- Fixture strategy below the conservative confidence threshold. -/
def sampleLowConfidence : Strategy :=
  { id := "s3", name := "Sample C", type := "neutral", confidence := 50,
    maxProfit := some 100, maxLoss := some (-50), capitalRequired := some 50,
    probabilityOfProfit := 0.5, legs := [],
    greeks := { delta := some 0, gamma := some 0, theta := some 0, vega := some 0 },
    breakEvenPoints := [] }

/-! ## The pricing model over `ℝ` (source `calculateOptionPrice` and `erf`,
lines 463-544) -/

/-- Source `erf` (lines 529-544): the Abramowitz-Stegun rational
approximation, extended to negative arguments by a sign flip. -/
noncomputable def erf (x : ℝ) : ℝ :=
  let a1 : ℝ := 0.254829592
  let a2 : ℝ := -0.284496736
  let a3 : ℝ := 1.421413741
  let a4 : ℝ := -1.453152027
  let a5 : ℝ := 1.061405429
  let p : ℝ := 0.3275911
  let sign : ℝ := if 0 ≤ x then 1 else -1
  let ax : ℝ := |x|
  let t : ℝ := 1 / (1 + p * ax)
  let y : ℝ :=
    1 - (((((a5 * t + a4) * t) + a3) * t + a2) * t + a1) * t * Real.exp (-(ax * ax))
  sign * y

/-- Source `cdf` (line 490): the standard normal CDF built from `erf`. -/
noncomputable def cdf (x : ℝ) : ℝ := 0.5 * (1 + erf (x / Real.sqrt 2))

/-- Source `d1` (line 486). -/
noncomputable def d1 (S K T σ r : ℝ) : ℝ :=
  (Real.log (S / K) + (r + 0.5 * σ * σ) * T) / (σ * Real.sqrt T)

/-- Source `d2` (line 487). -/
noncomputable def d2 (S K T σ r : ℝ) : ℝ := d1 S K T σ r - σ * Real.sqrt T

/-- Source `nd1` (line 494): the standard normal density at `d1`. -/
noncomputable def nd1 (S K T σ r : ℝ) : ℝ :=
  Real.exp (-0.5 * d1 S K T σ r * d1 S K T σ r) / Real.sqrt (2 * Real.pi)

/-- Source `price` before the market adjustment (lines 499-505). -/
noncomputable def bsPrice (S K T σ r : ℝ) (isCall : Bool) : ℝ :=
  if isCall then
    S * cdf (d1 S K T σ r) - K * Real.exp (-r * T) * cdf (d2 S K T σ r)
  else
    K * Real.exp (-r * T) * cdf (-d2 S K T σ r) - S * cdf (-d1 S K T σ r)

/-- Source `delta` before rounding (lines 501, 504). -/
noncomputable def bsDelta (S K T σ r : ℝ) (isCall : Bool) : ℝ :=
  if isCall then cdf (d1 S K T σ r) else cdf (d1 S K T σ r) - 1

/-- Source `gamma` before rounding (line 507). -/
noncomputable def bsGamma (S K T σ r : ℝ) : ℝ :=
  nd1 S K T σ r / (S * σ * Real.sqrt T)

/-- Source `theta` (annualized) before rounding (line 508). -/
noncomputable def bsTheta (S K T σ r : ℝ) (isCall : Bool) : ℝ :=
  -(S * nd1 S K T σ r * σ) / (2 * Real.sqrt T) -
    r * K * Real.exp (-r * T) * (if isCall then cdf (d2 S K T σ r) else cdf (-d2 S K T σ r))

/-- Source `vega` before rounding (line 509). -/
noncomputable def bsVega (S K T σ r : ℝ) : ℝ :=
  S * nd1 S K T σ r * Real.sqrt T / 100

/-- JS `Math.round(x * 100) / 100` over `ℝ`. -/
noncomputable def roundTo2 (x : ℝ) : ℝ := ((round (x * 100) : ℤ) : ℝ) / 100

/-- JS `Math.round(x * 1000) / 1000` over `ℝ`. -/
noncomputable def roundTo3 (x : ℝ) : ℝ := ((round (x * 1000) : ℤ) : ℝ) / 1000

/-- Greeks of the `ℝ`-valued pricing model. -/
structure BSGreeks where
  delta : ℝ
  gamma : ℝ
  theta : ℝ
  vega : ℝ

/-- Quote of the `ℝ`-valued pricing model. -/
structure BSQuote where
  price : ℝ
  greeks : BSGreeks

/-- Source `calculateOptionPrice` (lines 464-526): intrinsic value with
moneyness delta and zero remaining greeks when `T = timeToExpiry/365 ≤ 0`;
otherwise the Black-Scholes value times the market adjustment
`1 + (u - 0.5) * 0.1` (where `u` is the call's `Math.random()` draw),
floored at 0.05, with the greeks rounded as in the source (`theta` is
rounded to 2 decimals as an annual figure and then divided by 365).  The
source's `bidAskSpread` local is computed but never used, and is omitted. -/
noncomputable def calculateOptionPrice (S K timeToExpiry σ r : ℝ) (isCall : Bool)
    (u : ℝ) : BSQuote :=
  let T : ℝ := timeToExpiry / 365
  if T ≤ 0 then
    { price := if isCall then max (S - K) 0 else max (K - S) 0,
      greeks :=
        { delta := if isCall then (if K < S then 1 else 0) else (if S < K then -1 else 0),
          gamma := 0, theta := 0, vega := 0 } }
  else
    let price := bsPrice S K T σ r isCall
    let marketAdjustment : ℝ := 1 + (u - 0.5) * 0.1
    let adjustedPrice := price * marketAdjustment
    { price := max adjustedPrice 0.05,
      greeks :=
        { delta := roundTo2 (bsDelta S K T σ r isCall),
          gamma := roundTo3 (bsGamma S K T σ r),
          theta := roundTo2 (bsTheta S K T σ r isCall) / 365,
          vega := roundTo2 (bsVega S K T σ r) } }

/-! ## Theorems -/

/-- Equation for the zero-time branch of `calculateOptionPrice`. -/
theorem calculateOptionPrice_of_nonpos (S K dte σ r : ℝ) (c : Bool) (u : ℝ)
    (h : dte / 365 ≤ 0) :
    calculateOptionPrice S K dte σ r c u =
      { price := if c then max (S - K) 0 else max (K - S) 0,
        greeks :=
          { delta := if c then (if K < S then 1 else 0) else (if S < K then -1 else 0),
            gamma := 0, theta := 0, vega := 0 } } := by
  simp only [calculateOptionPrice]
  rw [if_pos h]

/-- Equation for the positive-time branch of `calculateOptionPrice`. -/
theorem calculateOptionPrice_of_pos (S K dte σ r : ℝ) (c : Bool) (u : ℝ)
    (h : ¬ (dte / 365 ≤ 0)) :
    calculateOptionPrice S K dte σ r c u =
      { price := max (bsPrice S K (dte / 365) σ r c * (1 + (u - 0.5) * 0.1)) 0.05,
        greeks :=
          { delta := roundTo2 (bsDelta S K (dte / 365) σ r c),
            gamma := roundTo3 (bsGamma S K (dte / 365) σ r),
            theta := roundTo2 (bsTheta S K (dte / 365) σ r c) / 365,
            vega := roundTo2 (bsVega S K (dte / 365) σ r) } } := by
  simp only [calculateOptionPrice]
  rw [if_neg h]

/-- C4: if `daysToExpiry ≤ 0`, the pricing model returns the intrinsic
value (`max(spot-strike,0)` for calls, `max(strike-spot,0)` for puts) as
the price, with delta in `{0,1}` for calls and `{0,-1}` for puts determined
by moneyness, and `gamma = theta = vega = 0`, without invoking the
Black-Scholes formula (the zero-time branch of `calculateOptionPrice` does
not mention `bsPrice`). -/
theorem intrinsic_at_expiry (S K dte σ r : ℝ) (c : Bool) (u : ℝ) (h : dte ≤ 0) :
    (calculateOptionPrice S K dte σ r c u).price =
      (if c then max (S - K) 0 else max (K - S) 0) ∧
    (calculateOptionPrice S K dte σ r c u).greeks.delta =
      (if c then (if K < S then (1 : ℝ) else 0) else (if S < K then -1 else 0)) ∧
    (calculateOptionPrice S K dte σ r c u).greeks.gamma = 0 ∧
    (calculateOptionPrice S K dte σ r c u).greeks.theta = 0 ∧
    (calculateOptionPrice S K dte σ r c u).greeks.vega = 0 ∧
    (c = true → (calculateOptionPrice S K dte σ r c u).greeks.delta = 0 ∨
      (calculateOptionPrice S K dte σ r c u).greeks.delta = 1) ∧
    (c = false → (calculateOptionPrice S K dte σ r c u).greeks.delta = 0 ∨
      (calculateOptionPrice S K dte σ r c u).greeks.delta = -1) := by
  have hT' : dte / 365 ≤ 0 := div_nonpos_iff.mpr (Or.inr ⟨h, by norm_num⟩)
  rw [calculateOptionPrice_of_nonpos S K dte σ r c u hT']
  refine ⟨rfl, rfl, rfl, rfl, rfl, ?_, ?_⟩
  · rintro rfl
    by_cases hK : K < S
    · right; simp [hK]
    · left; simp [hK]
  · rintro rfl
    by_cases hK : S < K
    · right; simp [hK]
    · left; simp [hK]

/-- Witness for `intrinsic_at_expiry` at `dte = 0`, `S = 100`, `K = 90`. -/
theorem intrinsic_at_expiry_witness :
    (calculateOptionPrice 100 90 0 0.25 0.05 true 0).price =
      (if true then max ((100 : ℝ) - 90) 0 else max (90 - 100) 0) ∧
    (calculateOptionPrice 100 90 0 0.25 0.05 true 0).greeks.delta =
      (if true then (if (90 : ℝ) < 100 then (1 : ℝ) else 0)
        else (if (100 : ℝ) < 90 then -1 else 0)) ∧
    (calculateOptionPrice 100 90 0 0.25 0.05 true 0).greeks.gamma = 0 ∧
    (calculateOptionPrice 100 90 0 0.25 0.05 true 0).greeks.theta = 0 ∧
    (calculateOptionPrice 100 90 0 0.25 0.05 true 0).greeks.vega = 0 ∧
    (true = true → (calculateOptionPrice 100 90 0 0.25 0.05 true 0).greeks.delta = 0 ∨
      (calculateOptionPrice 100 90 0 0.25 0.05 true 0).greeks.delta = 1) ∧
    (true = false → (calculateOptionPrice 100 90 0 0.25 0.05 true 0).greeks.delta = 0 ∨
      (calculateOptionPrice 100 90 0 0.25 0.05 true 0).greeks.delta = -1) :=
  intrinsic_at_expiry 100 90 0 0.25 0.05 true 0 (by norm_num)

/-- C3 (amended): for every input with `daysToExpiry > 0` the returned
price is at least 0.05; at `daysToExpiry ≤ 0` the price is the bare
intrinsic value, which can be below the tick (see
`price_floor_fails_at_zero_dte`). -/
theorem price_floored_when_dte_pos (S K dte σ r : ℝ) (c : Bool) (u : ℝ) (h : 0 < dte) :
    0.05 ≤ (calculateOptionPrice S K dte σ r c u).price := by
  have hT : ¬ (dte / 365 ≤ 0) := not_le.mpr (by positivity)
  rw [calculateOptionPrice_of_pos S K dte σ r c u hT]
  exact le_max_right _ _

/-- Witness for `price_floored_when_dte_pos` at `dte = 30`. -/
theorem price_floored_witness :
    (0 : ℝ) < 30 ∧ 0.05 ≤ (calculateOptionPrice 100 95 30 0.25 0.05 true 0).price :=
  ⟨by norm_num, price_floored_when_dte_pos 100 95 30 0.25 0.05 true 0 (by norm_num)⟩

/-- C3 counterexample: at `daysToExpiry = 0` with `spot = strike = 100` the
returned price is the intrinsic value 0, below the claimed 0.05 floor (the
floor is applied only on the `T > 0` branch of the source). -/
theorem price_floor_fails_at_zero_dte :
    (calculateOptionPrice 100 100 0 0.25 0.05 true 0).price < 0.05 := by
  have hT : ((0 : ℝ) / 365) ≤ 0 := by norm_num
  rw [calculateOptionPrice_of_nonpos 100 100 0 0.25 0.05 true 0 hT]
  norm_num

/-- C6: for `daysToExpiry > 0` the theta field of the returned greeks is
the annualized Black-Scholes theta first rounded to 2 decimal places and
then divided by 365. -/
theorem theta_rounding_order (S K dte σ r : ℝ) (c : Bool) (u : ℝ) (h : 0 < dte) :
    (calculateOptionPrice S K dte σ r c u).greeks.theta =
      roundTo2 (bsTheta S K (dte / 365) σ r c) / 365 := by
  have hT : ¬ (dte / 365 ≤ 0) := not_le.mpr (by positivity)
  rw [calculateOptionPrice_of_pos S K dte σ r c u hT]

/-- Witness for `theta_rounding_order` at `dte = 365`. -/
theorem theta_rounding_order_witness :
    (calculateOptionPrice 100 95 365 0.25 0.05 true 0).greeks.theta =
      roundTo2 (bsTheta 100 95 (365 / 365) 0.25 0.05 true) / 365 :=
  theta_rounding_order 100 95 365 0.25 0.05 true 0 (by norm_num)

/-- Identification of `Rat.floor` with the ambient floor. -/
theorem rat_floor_eq (q : ℚ) : Rat.floor q = ⌊q⌋ := by
  rw [Rat.floor_def', Rat.floor_def]

/-- Mapping `j ↦ b + j*d` over `range n` is an arithmetic progression. -/
theorem map_range_arith (d : ℚ) : ∀ (n : ℕ) (b : ℚ),
    (List.range n).map (fun j : ℕ => b + (j : ℚ) * d) = arithList b d n := by
  intro n
  induction n with
  | zero => intro b; rfl
  | succ m ih =>
    intro b
    rw [List.range_succ_eq_map, List.map_cons, List.map_map]
    have h0 : b + ((0 : ℕ) : ℚ) * d = b := by push_cast; ring
    rw [h0]
    show b :: _ = b :: arithList (b + d) d m
    congr 1
    rw [← ih (b + d)]
    apply List.map_congr_left
    intro a _
    show b + ((a + 1 : ℕ) : ℚ) * d = (b + d) + (a : ℚ) * d
    push_cast
    ring

/-- The raw 13-strike loop body is an arithmetic progression starting at
`(k-6)*d`. -/
theorem strikes_map_eq (k : ℤ) (d : ℚ) :
    (List.range 13).map (fun j : ℕ => (k : ℚ) * d + ((j : ℚ) - 6) * d) =
      arithList ((k : ℚ) * d - 6 * d) d 13 := by
  rw [← map_range_arith d 13 ((k : ℚ) * d - 6 * d)]
  apply List.map_congr_left
  intro a _
  ring

/-- Length of an arithmetic progression. -/
theorem arith_length (d : ℚ) : ∀ (n : ℕ) (b : ℚ), (arithList b d n).length = n := by
  intro n
  induction n with
  | zero => intro b; rfl
  | succ m ih => intro b; simp [arithList, ih]

/-- Members of an arithmetic progression. -/
theorem arith_mem (d : ℚ) : ∀ (n : ℕ) (b x : ℚ), x ∈ arithList b d n →
    ∃ j : ℕ, j < n ∧ x = b + (j : ℚ) * d := by
  intro n
  induction n with
  | zero => intro b x hx; cases hx
  | succ m ih =>
    intro b x hx
    rcases List.mem_cons.mp hx with rfl | hx
    · exact ⟨0, Nat.succ_pos m, by push_cast; ring⟩
    · obtain ⟨j, hj, hxe⟩ := ih (b + d) x hx
      exact ⟨j + 1, by omega, by rw [hxe]; push_cast; ring⟩

/-- Every member of a positive-start, positive-step progression is
positive. -/
theorem arith_all_pos {b d : ℚ} (hb : 0 < b) (hd : 0 < d) (n : ℕ) :
    ∀ x ∈ arithList b d n, 0 < x := by
  intro x hx
  obtain ⟨j, _, rfl⟩ := arith_mem d n b x hx
  have : (0 : ℚ) ≤ (j : ℚ) * d := mul_nonneg (by positivity) hd.le
  linarith

/-- Consecutive members of an arithmetic progression differ by exactly
`d`. -/
theorem arith_chain (d : ℚ) : ∀ (n : ℕ) (b : ℚ),
    List.Chain' (fun a c => c = a + d) (arithList b d n) := by
  intro n
  induction n with
  | zero => intro b; exact List.chain'_nil
  | succ m ih =>
    intro b
    cases m with
    | zero => exact List.chain'_singleton b
    | succ l =>
      rw [show arithList b d (l + 1 + 1) = b :: (b + d) :: arithList (b + d + d) d l from rfl]
      rw [List.chain'_cons]
      exact ⟨rfl, ih (b + d)⟩

/-- An arithmetic progression with positive step is strictly sorted. -/
theorem arith_sorted_lt {d : ℚ} (hd : 0 < d) (n : ℕ) (b : ℚ) :
    List.Sorted (· < ·) (arithList b d n) := by
  have h2 : List.Chain' (· < ·) (arithList b d n) := by
    apply (arith_chain d n b).imp
    intro a c hac
    rw [hac]
    exact lt_add_of_pos_right a hd
  exact List.chain'_iff_pairwise.mp h2

/-- An arithmetic progression with positive step is sorted. -/
theorem arith_sorted_le {d : ℚ} (hd : 0 < d) (n : ℕ) (b : ℚ) :
    List.Sorted (· ≤ ·) (arithList b d n) :=
  (arith_sorted_lt hd n b).imp le_of_lt

/-- Keeping the positive members of an arithmetic progression with
positive step yields an arithmetic progression again (the positive members
form a suffix). -/
theorem arith_filter_pos {d : ℚ} (hd : 0 < d) : ∀ (n : ℕ) (b : ℚ),
    ∃ (b' : ℚ) (m : ℕ),
      (arithList b d n).filter (fun s => decide (0 < s)) = arithList b' d m ∧ m ≤ n := by
  intro n
  induction n with
  | zero => intro b; exact ⟨b, 0, rfl, le_refl 0⟩
  | succ l ih =>
    intro b
    by_cases hb : 0 < b
    · refine ⟨b, l + 1, ?_, le_refl _⟩
      apply List.filter_eq_self.mpr
      intro x hx
      exact decide_eq_true (arith_all_pos hb hd (l + 1) x hx)
    · obtain ⟨b', m, he, hm⟩ := ih (b + d)
      refine ⟨b', m, ?_, by omega⟩
      show List.filter _ (b :: arithList (b + d) d l) = _
      rw [List.filter_cons_of_neg (by simpa using hb)]
      exact he

/-- Structure of `strikesFrom`: the JS sort is the identity on the already
ascending kept suffix, so the ladder is an arithmetic progression of step
`d` with at most 13 members, all positive. -/
theorem strikesFrom_eq {d : ℚ} (hd : 0 < d) (k : ℤ) :
    ∃ (b : ℚ) (m : ℕ), strikesFrom k d = arithList b d m ∧ m ≤ 13 := by
  obtain ⟨b', m, he, hm⟩ := arith_filter_pos hd 13 ((k : ℚ) * d - 6 * d)
  refine ⟨b', m, ?_, hm⟩
  unfold strikesFrom
  rw [strikes_map_eq, he]
  exact List.mergeSort_eq_self (arith_sorted_le hd m b')

/-- The band-selected interval is positive. -/
theorem interval_pos (spot : ℚ) : 0 < interval spot := by
  unfold interval
  split_ifs <;> norm_num

/-- All ladder members are positive (for every spot). -/
theorem generateStrikes_pos (spot : ℚ) : ∀ x ∈ generateStrikes spot, 0 < x := by
  intro x hx
  unfold generateStrikes strikesFrom at hx
  have hperm := List.mergeSort_perm
    ((((List.range 13).map (fun j => ((jsRound (spot / interval spot) : ℤ) : ℚ) *
      interval spot + ((j : ℚ) - 6) * interval spot)).filter (fun s => decide (0 < s))))
    (fun a b => decide (a ≤ b))
  have hx' := hperm.mem_iff.mp hx
  exact of_decide_eq_true (List.mem_filter.mp hx').2

/-- C7: for every spot > 0 the strike ladder is a strictly ascending
sequence of at most 13 positive numbers whose consecutive elements differ
by exactly the band-selected interval (2.5 below 50, 5 below 100, 5 below
200, 10 below 500, else 25). -/
theorem strike_ladder_spec (spot : ℚ) (h : 0 < spot) :
    List.Chain' (fun a c => c = a + interval spot) (generateStrikes spot) ∧
    List.Sorted (· < ·) (generateStrikes spot) ∧
    (generateStrikes spot).length ≤ 13 ∧
    (∀ x ∈ generateStrikes spot, 0 < x) ∧
    (spot < 50 → interval spot = 2.5) ∧
    (50 ≤ spot → spot < 100 → interval spot = 5) ∧
    (100 ≤ spot → spot < 200 → interval spot = 5) ∧
    (200 ≤ spot → spot < 500 → interval spot = 10) ∧
    (500 ≤ spot → interval spot = 25) := by
  obtain ⟨b, m, he, hm⟩ := strikesFrom_eq (interval_pos spot)
    (jsRound (spot / interval spot))
  rw [show generateStrikes spot =
    strikesFrom (jsRound (spot / interval spot)) (interval spot) from rfl, he]
  refine ⟨arith_chain _ m b, arith_sorted_lt (interval_pos spot) m b, ?_, ?_, ?_, ?_, ?_, ?_, ?_⟩
  · exact le_trans (le_of_eq (arith_length (interval spot) m b)) hm
  · rw [← he]
    intro x hx
    exact generateStrikes_pos spot x hx
  · intro h1; unfold interval; rw [if_pos h1]
  · intro h1 h2; unfold interval; rw [if_neg (not_lt.mpr h1), if_pos h2]
  · intro h1 h2; unfold interval
    rw [if_neg (by linarith : ¬ spot < 50), if_neg (not_lt.mpr h1), if_pos h2]
  · intro h1 h2; unfold interval
    rw [if_neg (by linarith : ¬ spot < 50), if_neg (by linarith : ¬ spot < 100),
      if_neg (not_lt.mpr h1), if_pos h2]
  · intro h1; unfold interval
    rw [if_neg (by linarith : ¬ spot < 50), if_neg (by linarith : ¬ spot < 100),
      if_neg (by linarith : ¬ spot < 200), if_neg (not_lt.mpr h1)]

unseal Rat.mul Rat.inv Rat.add Rat.sub Rat.ofScientific List.merge List.mergeSort in
/-- Ladder for tiny spot prices (spot strictly between 0 and 1.25): the
base strike rounds to 0, leaving the six positive offsets. -/
theorem generateStrikes_small0 {spot : ℚ} (h0 : 0 < spot) (h1 : spot < 5/4) :
    generateStrikes spot = [2.5, 5, 7.5, 10, 12.5, 15] := by
  have hi : interval spot = 2.5 := by
    unfold interval
    rw [if_pos (by linarith : spot < 50)]
  have hk : jsRound (spot / interval spot) = 0 := by
    rw [hi]
    unfold jsRound
    rw [rat_floor_eq, Int.floor_eq_iff]
    push_cast
    constructor
    · have h2 : 0 < spot / 2.5 := by positivity
      linarith
    · have h2 : spot / 2.5 < 1/2 := by
        rw [div_lt_iff (by norm_num : (0 : ℚ) < 2.5)]
        linarith
      linarith
  unfold generateStrikes
  rw [hk, hi]
  decide

unseal Rat.mul Rat.inv Rat.add Rat.sub Rat.ofScientific List.merge List.mergeSort in
/-- Ladder for small spot prices (spot in the interval from 1.25 up to but
not including 3.75): the base strike rounds to one interval, leaving seven
positive members. -/
theorem generateStrikes_small1 {spot : ℚ} (h1 : 5/4 ≤ spot) (h2 : spot < 15/4) :
    generateStrikes spot = [2.5, 5, 7.5, 10, 12.5, 15, 17.5] := by
  have hi : interval spot = 2.5 := by
    unfold interval
    rw [if_pos (by linarith : spot < 50)]
  have hk : jsRound (spot / interval spot) = 1 := by
    rw [hi]
    unfold jsRound
    rw [rat_floor_eq, Int.floor_eq_iff]
    push_cast
    constructor
    · have h3 : (1 : ℚ) / 2 ≤ spot / 2.5 := by
        rw [le_div_iff (by norm_num : (0 : ℚ) < 2.5)]
        linarith
      linarith
    · have h3 : spot / 2.5 < 3 / 2 := by
        rw [div_lt_iff (by norm_num : (0 : ℚ) < 2.5)]
        linarith
      linarith
  unfold generateStrikes
  rw [hk, hi]
  decide

/-- For spot at least 3.75 the ladder keeps at least 8 members, so every
fixed fallback index (at most 7) is in range. -/
theorem generateStrikes_len8 {spot : ℚ} (h : 15/4 ≤ spot) :
    8 ≤ (generateStrikes spot).length := by
  have hd := interval_pos spot
  have hk : 2 ≤ jsRound (spot / interval spot) := by
    unfold jsRound
    apply Rat.le_floor.mpr
    have hsd : (3 : ℚ) / 2 ≤ spot / interval spot := by
      unfold interval
      split_ifs with c1 c2 c3 c4
      · rw [le_div_iff (by norm_num : (0 : ℚ) < 2.5)]; linarith
      · rw [le_div_iff (by norm_num : (0 : ℚ) < 5)]; linarith
      · rw [le_div_iff (by norm_num : (0 : ℚ) < 5)]; linarith
      · rw [le_div_iff (by norm_num : (0 : ℚ) < 10)]; linarith
      · rw [le_div_iff (by norm_num : (0 : ℚ) < 25)]; linarith
    push_cast
    linarith
  show 8 ≤ (strikesFrom (jsRound (spot / interval spot)) (interval spot)).length
  set d := interval spot
  set k := jsRound (spot / d)
  unfold strikesFrom
  rw [(List.mergeSort_perm _ _).length_eq]
  have hsplit : List.range 13 = List.range 5 ++ (List.range 8).map (fun x => 5 + x) :=
    List.range_add 5 8
  rw [hsplit, List.map_append, List.filter_append, List.length_append, List.map_map]
  have hall : ∀ x ∈ (List.range 8).map
      ((fun j : ℕ => (k : ℚ) * d + ((j : ℚ) - 6) * d) ∘ (fun x => 5 + x)),
      (fun s => decide (0 < s)) x = true := by
    intro x hx
    simp only [List.mem_map, Function.comp] at hx
    obtain ⟨j, _, rfl⟩ := hx
    apply decide_eq_true
    have hk' : (2 : ℚ) ≤ (k : ℚ) := by exact_mod_cast hk
    have hj0 : (0 : ℚ) ≤ (j : ℚ) := by positivity
    have hval : (k : ℚ) * d + (((5 + j : ℕ) : ℚ) - 6) * d =
        ((k : ℚ) + (j : ℚ) - 1) * d := by push_cast; ring
    rw [hval]
    exact mul_pos (by linarith) hd
  rw [List.filter_eq_self.mpr hall, List.length_map, List.length_range]
  omega

/-- For every positive spot the ladder has at least 6 members, so every
fixed fallback index up to 5 is in range. -/
theorem generateStrikes_len6 {spot : ℚ} (h : 0 < spot) :
    6 ≤ (generateStrikes spot).length := by
  rcases lt_or_le spot (5/4) with h1 | h1
  · rw [generateStrikes_small0 h h1]; simp
  · rcases lt_or_le spot (15/4) with h2 | h2
    · rw [generateStrikes_small1 h1 h2]; simp
    · exact le_trans (by norm_num) (generateStrikes_len8 h2)

/-- A `jsFind` result is a ladder member. -/
theorem jsFind_mem {l : List ℚ} {p : ℚ → Bool} {i : ℕ} {x : ℚ}
    (h : jsFind l p i = some x) : x ∈ l := by
  unfold jsFind at h
  cases hf : l.find? p with
  | some y =>
    rw [hf] at h
    have h' : some y = some x := h
    injection h' with h''
    exact h'' ▸ List.mem_of_find?_eq_some hf
  | none =>
    rw [hf] at h
    have h' : l.get? i = some x := h
    exact List.get?_mem h'

/-- `jsFind` succeeds when its fallback index is in range. -/
theorem jsFind_isSome_idx {l : List ℚ} {p : ℚ → Bool} {i : ℕ} (h : i < l.length) :
    (jsFind l p i).isSome = true := by
  unfold jsFind
  cases hf : l.find? p with
  | some y => rfl
  | none =>
    show (l.get? i).isSome = true
    rw [List.get?_eq_get h]
    rfl

/-- `jsFind` succeeds when some ladder member satisfies the predicate. -/
theorem jsFind_isSome_find {l : List ℚ} {p : ℚ → Bool} {i : ℕ}
    (h : ∃ x ∈ l, p x = true) : (jsFind l p i).isSome = true := by
  have hs : (l.find? p).isSome = true := List.find?_isSome.mpr h
  unfold jsFind
  cases hf : l.find? p with
  | some y => rfl
  | none => rw [hf] at hs; cases hs

/-- A successful `jsFind` into the strike ladder yields a defined positive
strike. -/
theorem jsFind_spec {l : List ℚ} {p : ℚ → Bool} {i : ℕ}
    (hs : (jsFind l p i).isSome = true) (hpos : ∀ x ∈ l, 0 < x) :
    ∃ k, jsFind l p i = some k ∧ 0 < k := by
  obtain ⟨k, hk⟩ := Option.isSome_iff_exists.mp hs
  exact ⟨k, hk, hpos k (jsFind_mem hk)⟩

/-- Selection with a fallback index below 6 always yields a defined
positive strike. -/
theorem sel_lowidx {spot : ℚ} (h : 0 < spot) (p : ℚ → Bool) {i : ℕ} (hi : i < 6) :
    ∃ k, jsFind (generateStrikes spot) p i = some k ∧ 0 < k := by
  apply jsFind_spec ?_ (generateStrikes_pos spot)
  apply jsFind_isSome_idx
  have := generateStrikes_len6 h
  omega

/-- Covered Call strike selection succeeds for every positive spot. -/
theorem ccStrike_spec {spot : ℚ} (h : 0 < spot) :
    ∃ k, ccStrike spot = some k ∧ 0 < k := by
  unfold ccStrike
  apply jsFind_spec ?_ (generateStrikes_pos spot)
  rcases lt_or_le spot (5/4) with h1 | h1
  · apply jsFind_isSome_find
    refine ⟨2.5, ?_, decide_eq_true (by nlinarith)⟩
    rw [generateStrikes_small0 h h1]
    exact List.mem_cons_self _ _
  · rcases lt_or_le spot (15/4) with h2 | h2
    · apply jsFind_isSome_find
      refine ⟨5, ?_, decide_eq_true (by nlinarith)⟩
      rw [generateStrikes_small1 h1 h2]
      exact List.mem_cons_of_mem _ (List.mem_cons_self _ _)
    · apply jsFind_isSome_idx
      have := generateStrikes_len8 h2
      omega

/-- Iron Condor short-call selection succeeds for every positive spot. -/
theorem icCallShortStrike_spec {spot : ℚ} (h : 0 < spot) :
    ∃ k, icCallShortStrike spot = some k ∧ 0 < k := by
  unfold icCallShortStrike
  apply jsFind_spec ?_ (generateStrikes_pos spot)
  rcases lt_or_le spot (5/4) with h1 | h1
  · apply jsFind_isSome_find
    refine ⟨2.5, ?_, decide_eq_true (by nlinarith)⟩
    rw [generateStrikes_small0 h h1]
    exact List.mem_cons_self _ _
  · rcases lt_or_le spot (15/4) with h2 | h2
    · apply jsFind_isSome_find
      refine ⟨5, ?_, decide_eq_true (by nlinarith)⟩
      rw [generateStrikes_small1 h1 h2]
      exact List.mem_cons_of_mem _ (List.mem_cons_self _ _)
    · apply jsFind_isSome_idx
      have := generateStrikes_len8 h2
      omega

/-- On the tiny ladder the Iron Condor short call is its head, 2.5. -/
theorem icCallShortStrike_small0 {spot : ℚ} (h0 : 0 < spot) (h1 : spot < 5/4) :
    icCallShortStrike spot = some 2.5 := by
  unfold icCallShortStrike jsFind
  rw [generateStrikes_small0 h0 h1]
  have hf : List.find? (fun s => decide (spot * 1.07 < s)) [2.5, 5, 7.5, 10, 12.5, 15] =
      some 2.5 := List.find?_cons_of_pos _ (decide_eq_true (by nlinarith))
  rw [hf]
  rfl

/-- On the small ladder the Iron Condor short call is 2.5 or 5. -/
theorem icCallShortStrike_small1 {spot : ℚ} (h1 : 5/4 ≤ spot) (h2 : spot < 15/4) :
    ∃ v, icCallShortStrike spot = some v ∧ v ≤ 5 := by
  by_cases hp : spot * 1.07 < 2.5
  · refine ⟨2.5, ?_, by norm_num⟩
    unfold icCallShortStrike jsFind
    rw [generateStrikes_small1 h1 h2]
    have hf : List.find? (fun s => decide (spot * 1.07 < s)) [2.5, 5, 7.5, 10, 12.5, 15, 17.5] =
        some 2.5 := List.find?_cons_of_pos _ (decide_eq_true hp)
    rw [hf]
    rfl
  · refine ⟨5, ?_, le_refl 5⟩
    unfold icCallShortStrike jsFind
    rw [generateStrikes_small1 h1 h2]
    have hf1 : List.find? (fun s => decide (spot * 1.07 < s)) [2.5, 5, 7.5, 10, 12.5, 15, 17.5] =
        List.find? (fun s => decide (spot * 1.07 < s)) [5, 7.5, 10, 12.5, 15, 17.5] :=
      List.find?_cons_of_neg _ (by simpa using hp)
    have hf2 : List.find? (fun s => decide (spot * 1.07 < s)) [5, 7.5, 10, 12.5, 15, 17.5] =
        some 5 := List.find?_cons_of_pos _ (decide_eq_true (by nlinarith))
    rw [hf1, hf2]
    rfl

/-- On the tiny ladder the Bear Call short call is its head, 2.5. -/
theorem bearCallShortStrike_small0 {spot : ℚ} (h0 : 0 < spot) (h1 : spot < 5/4) :
    bearCallShortStrike spot = some 2.5 := by
  unfold bearCallShortStrike jsFind
  rw [generateStrikes_small0 h0 h1]
  have hf : List.find? (fun s => decide (spot * 1.02 < s)) [2.5, 5, 7.5, 10, 12.5, 15] =
      some 2.5 := List.find?_cons_of_pos _ (decide_eq_true (by nlinarith))
  rw [hf]
  rfl

/-- On the small ladder the Bear Call short call is 2.5 or 5. -/
theorem bearCallShortStrike_small1 {spot : ℚ} (h1 : 5/4 ≤ spot) (h2 : spot < 15/4) :
    ∃ v, bearCallShortStrike spot = some v ∧ v ≤ 5 := by
  by_cases hp : spot * 1.02 < 2.5
  · refine ⟨2.5, ?_, by norm_num⟩
    unfold bearCallShortStrike jsFind
    rw [generateStrikes_small1 h1 h2]
    have hf : List.find? (fun s => decide (spot * 1.02 < s)) [2.5, 5, 7.5, 10, 12.5, 15, 17.5] =
        some 2.5 := List.find?_cons_of_pos _ (decide_eq_true hp)
    rw [hf]
    rfl
  · refine ⟨5, ?_, le_refl 5⟩
    unfold bearCallShortStrike jsFind
    rw [generateStrikes_small1 h1 h2]
    have hf1 : List.find? (fun s => decide (spot * 1.02 < s)) [2.5, 5, 7.5, 10, 12.5, 15, 17.5] =
        List.find? (fun s => decide (spot * 1.02 < s)) [5, 7.5, 10, 12.5, 15, 17.5] :=
      List.find?_cons_of_neg _ (by simpa using hp)
    have hf2 : List.find? (fun s => decide (spot * 1.02 < s)) [5, 7.5, 10, 12.5, 15, 17.5] =
        some 5 := List.find?_cons_of_pos _ (decide_eq_true (by nlinarith))
    rw [hf1, hf2]
    rfl

/-- Membership of 15 in the tiny ladder. -/
theorem mem_small0_15 : (15 : ℚ) ∈ ([2.5, 5, 7.5, 10, 12.5, 15] : List ℚ) :=
  List.mem_cons_of_mem _ (List.mem_cons_of_mem _ (List.mem_cons_of_mem _
    (List.mem_cons_of_mem _ (List.mem_cons_of_mem _ (List.mem_cons_self _ _)))))

/-- Membership of 17.5 in the small ladder. -/
theorem mem_small1_17 : (17.5 : ℚ) ∈ ([2.5, 5, 7.5, 10, 12.5, 15, 17.5] : List ℚ) :=
  List.mem_cons_of_mem _ (List.mem_cons_of_mem _ (List.mem_cons_of_mem _
    (List.mem_cons_of_mem _ (List.mem_cons_of_mem _ (List.mem_cons_of_mem _
      (List.mem_cons_self _ _))))))

/-- Iron Condor long-call selection succeeds for every positive spot. -/
theorem icCallLongStrike_spec {spot : ℚ} (h : 0 < spot) :
    ∃ k, icCallLongStrike spot = some k ∧ 0 < k := by
  unfold icCallLongStrike
  apply jsFind_spec ?_ (generateStrikes_pos spot)
  rcases lt_or_le spot (5/4) with h1 | h1
  · apply jsFind_isSome_find
    refine ⟨15, ?_, ?_⟩
    · rw [generateStrikes_small0 h h1]; exact mem_small0_15
    · rw [icCallShortStrike_small0 h h1]
      show ogtB (some 15) (oadd (some 2.5) (some 10)) = true
      simp only [oadd, ogtB]
      exact decide_eq_true (by norm_num)
  · rcases lt_or_le spot (15/4) with h2 | h2
    · obtain ⟨v, hv, hv5⟩ := icCallShortStrike_small1 h1 h2
      apply jsFind_isSome_find
      refine ⟨17.5, ?_, ?_⟩
      · rw [generateStrikes_small1 h1 h2]; exact mem_small1_17
      · rw [hv]
        show ogtB (some 17.5) (oadd (some v) (some 10)) = true
        simp only [oadd, ogtB]
        exact decide_eq_true (by norm_num; linarith)
    · apply jsFind_isSome_idx
      have := generateStrikes_len8 h2
      omega

/-- Bear Call long-call selection succeeds for every positive spot. -/
theorem bearCallLongStrike_spec {spot : ℚ} (h : 0 < spot) :
    ∃ k, bearCallLongStrike spot = some k ∧ 0 < k := by
  unfold bearCallLongStrike
  apply jsFind_spec ?_ (generateStrikes_pos spot)
  rcases lt_or_le spot (5/4) with h1 | h1
  · apply jsFind_isSome_find
    refine ⟨15, ?_, ?_⟩
    · rw [generateStrikes_small0 h h1]; exact mem_small0_15
    · rw [bearCallShortStrike_small0 h h1]
      show ogtB (some 15) (oadd (some 2.5) (some 10)) = true
      simp only [oadd, ogtB]
      exact decide_eq_true (by norm_num)
  · rcases lt_or_le spot (15/4) with h2 | h2
    · obtain ⟨v, hv, hv5⟩ := bearCallShortStrike_small1 h1 h2
      apply jsFind_isSome_find
      refine ⟨17.5, ?_, ?_⟩
      · rw [generateStrikes_small1 h1 h2]; exact mem_small1_17
      · rw [hv]
        show ogtB (some 17.5) (oadd (some v) (some 10)) = true
        simp only [oadd, ogtB]
        exact decide_eq_true (by norm_num; linarith)
    · apply jsFind_isSome_idx
      have := generateStrikes_len8 h2
      omega

/-- The Bull Call long selection coincides with the Bear Call short one. -/
theorem bullCallLongStrike_eq (spot : ℚ) :
    bullCallLongStrike spot = bearCallShortStrike spot := rfl

/-- The Bull Call short selection coincides with the Bear Call long one. -/
theorem bullCallShortStrike_eq (spot : ℚ) :
    bullCallShortStrike spot = bearCallLongStrike spot := rfl

/-- Bull Put short-put selection succeeds for every positive spot. -/
theorem bullPutShortStrike_spec {spot : ℚ} (h : 0 < spot) :
    ∃ k, bullPutShortStrike spot = some k ∧ 0 < k := by
  unfold bullPutShortStrike; exact sel_lowidx h _ (by norm_num)

/-- Bull Put long-put selection succeeds for every positive spot. -/
theorem bullPutLongStrike_spec {spot : ℚ} (h : 0 < spot) :
    ∃ k, bullPutLongStrike spot = some k ∧ 0 < k := by
  unfold bullPutLongStrike; exact sel_lowidx h _ (by norm_num)

/-- Iron Condor short-put selection succeeds for every positive spot. -/
theorem icPutShortStrike_spec {spot : ℚ} (h : 0 < spot) :
    ∃ k, icPutShortStrike spot = some k ∧ 0 < k := by
  unfold icPutShortStrike; exact sel_lowidx h _ (by norm_num)

/-- Iron Condor long-put selection succeeds for every positive spot. -/
theorem icPutLongStrike_spec {spot : ℚ} (h : 0 < spot) :
    ∃ k, icPutLongStrike spot = some k ∧ 0 < k := by
  unfold icPutLongStrike; exact sel_lowidx h _ (by norm_num)

/-- Cash Secured Put selection succeeds for every positive spot. -/
theorem cspStrike_spec {spot : ℚ} (h : 0 < spot) :
    ∃ k, cspStrike spot = some k ∧ 0 < k := by
  unfold cspStrike; exact sel_lowidx h _ (by norm_num)

/-- Long Straddle selection succeeds for every positive spot. -/
theorem straddleStrike_spec {spot : ℚ} (h : 0 < spot) :
    ∃ k, straddleStrike spot = some k ∧ 0 < k := by
  unfold straddleStrike; exact sel_lowidx h _ (by norm_num)

/-- Bear Call short-call selection succeeds for every positive spot. -/
theorem bearCallShortStrike_spec {spot : ℚ} (h : 0 < spot) :
    ∃ k, bearCallShortStrike spot = some k ∧ 0 < k := by
  unfold bearCallShortStrike; exact sel_lowidx h _ (by norm_num)

/-- Bull Call long-call selection succeeds for every positive spot. -/
theorem bullCallLongStrike_spec {spot : ℚ} (h : 0 < spot) :
    ∃ k, bullCallLongStrike spot = some k ∧ 0 < k := by
  rw [bullCallLongStrike_eq]; exact bearCallShortStrike_spec h

/-- Bull Call short-call selection succeeds for every positive spot. -/
theorem bullCallShortStrike_spec {spot : ℚ} (h : 0 < spot) :
    ∃ k, bullCallShortStrike spot = some k ∧ 0 < k := by
  rw [bullCallShortStrike_eq]; exact bearCallLongStrike_spec h

/-- Membership inversion for the synthesizer output: a strategy is
produced exactly when its template's inclusion test passes. -/
theorem mem_generateStrategies (e : ScanEnv) (s : Strategy) :
    s ∈ generateStrategies e ↔
      (oleB (bullPutCredit e) (some 0.05) = false ∧ s = bullPutSpread e) ∨
      (ogtB (icCredit e) (some 0.10) = true ∧ s = ironCondor e) ∨
      s = cashSecuredPut e ∨ s = longStraddle e ∨ s = coveredCall e ∨
      (ogtB (bearCallCredit e) (some 0.05) = true ∧ s = bearCallSpread e) ∨
      ((ogtB (bullCallDebit e) (some 0) && ogtB (bullCallMaxProfit e) (some 0.10)) = true ∧
        s = bullCallSpread e) := by
  unfold generateStrategies
  cases h1 : oleB (bullPutCredit e) (some 0.05) <;>
    cases h2 : ogtB (icCredit e) (some 0.10) <;>
      cases h3 : ogtB (bearCallCredit e) (some 0.05) <;>
        cases h4 : (ogtB (bullCallDebit e) (some 0) && ogtB (bullCallMaxProfit e) (some 0.10)) <;>
          simp [List.mem_append]

/-- C1 (amended): for every positive spot price and every DTE window,
every leg of every produced strategy has a well-defined positive strike
(degenerate short ladders are absorbed by the fixed-index fallbacks, and
for the tiny ladders every greater-than template predicate is satisfiable,
so no out-of-range fallback index is ever dereferenced); and whenever the
expiration calendar is nonempty, every leg also has a well-defined expiry.
With an empty calendar the produced legs carry the undefined
`expirations[0]` as their expiry (see
`undefined_expiry_on_empty_calendar`); the synthesizer is a total
function, so it completes on every input either way. -/
theorem legs_well_defined (e : ScanEnv) (h : 0 < e.currentPrice) :
    ∀ s ∈ generateStrategies e, ∀ l ∈ s.legs,
      (∃ k, l.strike = some k ∧ 0 < k) ∧
      (e.expirations ≠ [] → l.expiry.isSome = true) := by
  intro s hs l hl
  have hexp : e.expirations ≠ [] → e.primaryExpiry.isSome = true := fun hne =>
    List.head?_isSome.mpr hne
  rcases (mem_generateStrategies e s).mp hs with ⟨_, rfl⟩ | ⟨_, rfl⟩ | rfl | rfl | rfl |
    ⟨_, rfl⟩ | ⟨_, rfl⟩
  · simp only [bullPutSpread, List.mem_cons, List.not_mem_nil, or_false] at hl
    rcases hl with rfl | rfl
    · exact ⟨bullPutShortStrike_spec h, hexp⟩
    · exact ⟨bullPutLongStrike_spec h, hexp⟩
  · simp only [ironCondor, List.mem_cons, List.not_mem_nil, or_false] at hl
    rcases hl with rfl | rfl | rfl | rfl
    · exact ⟨icCallShortStrike_spec h, hexp⟩
    · exact ⟨icCallLongStrike_spec h, hexp⟩
    · exact ⟨icPutShortStrike_spec h, hexp⟩
    · exact ⟨icPutLongStrike_spec h, hexp⟩
  · simp only [cashSecuredPut, List.mem_cons, List.not_mem_nil, or_false] at hl
    rcases hl with rfl
    exact ⟨cspStrike_spec h, hexp⟩
  · simp only [longStraddle, List.mem_cons, List.not_mem_nil, or_false] at hl
    rcases hl with rfl | rfl
    · exact ⟨straddleStrike_spec h, hexp⟩
    · exact ⟨straddleStrike_spec h, hexp⟩
  · simp only [coveredCall, List.mem_cons, List.not_mem_nil, or_false] at hl
    rcases hl with rfl
    exact ⟨ccStrike_spec h, hexp⟩
  · simp only [bearCallSpread, List.mem_cons, List.not_mem_nil, or_false] at hl
    rcases hl with rfl | rfl
    · exact ⟨bearCallShortStrike_spec h, hexp⟩
    · exact ⟨bearCallLongStrike_spec h, hexp⟩
  · simp only [bullCallSpread, List.mem_cons, List.not_mem_nil, or_false] at hl
    rcases hl with rfl | rfl
    · exact ⟨bullCallLongStrike_spec h, hexp⟩
    · exact ⟨bullCallShortStrike_spec h, hexp⟩

/-- Witness for `legs_well_defined` on the fixture invocation. -/
theorem legs_well_defined_witness :
    (0 : ℚ) < normalEnv.currentPrice ∧
    ∀ s ∈ generateStrategies normalEnv, ∀ l ∈ s.legs,
      (∃ k, l.strike = some k ∧ 0 < k) ∧
      (normalEnv.expirations ≠ [] → l.expiry.isSome = true) :=
  ⟨by norm_num [normalEnv], legs_well_defined normalEnv (by norm_num [normalEnv])⟩

unseal Rat.mul Rat.inv Rat.add Rat.sub Rat.ofScientific List.merge List.mergeSort in
/-- C1 counterexample: on the fixture invocation whose DTE window makes
the expiration calendar empty, the synthesizer still produces strategies
(no exception), but their legs carry an undefined expiry — the claim that
every leg of every produced strategy has a well-defined expiry date is
false. -/
theorem undefined_expiry_on_empty_calendar :
    ∃ s ∈ generateStrategies emptyCalEnv, ∃ l ∈ s.legs, l.expiry = none := by decide

/-- C2: the conservative output is exactly the synthesized strategies
with confidence at least 65 and non-volatility category, stably sorted
non-increasing by confidence (`mergeSort` is the stable sort) and
truncated to the first `maxStrategies` entries; in particular it is sorted
non-increasing, has length at most `maxStrategies`, and never contains a
volatility-category strategy. -/
theorem conservative_filter_spec (allStrategies : List Strategy) (n : ℕ) :
    selectStrategies allStrategies "conservative" n =
      ((allStrategies.filter
        (fun s => decide (65 ≤ s.confidence) && decide (s.type ≠ "volatility"))).mergeSort
        (fun a b => decide (b.confidence ≤ a.confidence))).take n ∧
    (selectStrategies allStrategies "conservative" n).length ≤ n ∧
    List.Sorted (fun a b => b.confidence ≤ a.confidence)
      (selectStrategies allStrategies "conservative" n) ∧
    ∀ s ∈ selectStrategies allStrategies "conservative" n,
      65 ≤ s.confidence ∧ s.type ≠ "volatility" := by
  have heq : selectStrategies allStrategies "conservative" n =
      ((allStrategies.filter
        (fun s => decide (65 ≤ s.confidence) && decide (s.type ≠ "volatility"))).mergeSort
        (fun a b => decide (b.confidence ≤ a.confidence))).take n := by
    unfold selectStrategies
    rw [if_pos rfl]
  have hpair : List.Pairwise
      (fun a b => (fun a b : Strategy => decide (b.confidence ≤ a.confidence)) a b = true)
      ((allStrategies.filter
        (fun s => decide (65 ≤ s.confidence) && decide (s.type ≠ "volatility"))).mergeSort
        (fun a b => decide (b.confidence ≤ a.confidence))) := by
    apply List.sorted_mergeSort
    · intro a b c h1 h2
      simp only [decide_eq_true_eq] at h1 h2 ⊢
      exact le_trans h2 h1
    · intro a b
      simp only [Bool.or_eq_true, decide_eq_true_eq]
      exact le_total b.confidence a.confidence
  refine ⟨heq, ?_, ?_, ?_⟩
  · rw [heq, List.length_take]
    exact min_le_left _ _
  · rw [heq]
    exact (hpair.sublist (List.take_sublist n _)).imp (fun h => of_decide_eq_true h)
  · intro s hs
    rw [heq] at hs
    have h1 := (List.mergeSort_perm _ _).mem_iff.mp (List.mem_of_mem_take hs)
    have h2 := (List.mem_filter.mp h1).2
    rw [Bool.and_eq_true, decide_eq_true_eq, decide_eq_true_eq] at h2
    exact h2

unseal Rat.mul Rat.inv Rat.add Rat.sub Rat.ofScientific List.merge List.mergeSort in
/-- Witness for `conservative_filter_spec`: on a concrete three-strategy
list only the conforming strategy survives, and the theorem's membership
component applies to it. -/
theorem conservative_filter_witness :
    65 ≤ sampleConservative.confidence ∧ sampleConservative.type ≠ "volatility" :=
  (conservative_filter_spec [sampleVolatility, sampleConservative, sampleLowConfidence]
    5).2.2.2 sampleConservative (by decide)

/-- Witness for `strike_ladder_spec` at spot 100. -/
theorem strike_ladder_witness :
    (0 : ℚ) < 100 ∧
    (List.Chain' (fun a c => c = a + interval 100) (generateStrikes 100) ∧
     List.Sorted (· < ·) (generateStrikes 100) ∧
     (generateStrikes 100).length ≤ 13 ∧
     (∀ x ∈ generateStrikes 100, 0 < x) ∧
     ((100 : ℚ) < 50 → interval 100 = 2.5) ∧
     ((50 : ℚ) ≤ 100 → (100 : ℚ) < 100 → interval 100 = 5) ∧
     ((100 : ℚ) ≤ 100 → (100 : ℚ) < 200 → interval 100 = 5) ∧
     ((200 : ℚ) ≤ 100 → (100 : ℚ) < 500 → interval 100 = 10) ∧
     ((500 : ℚ) ≤ 100 → interval 100 = 25)) :=
  ⟨by norm_num, strike_ladder_spec 100 (by norm_num)⟩

/-- The while-loop of the calendar leaves every candidate on a Friday. -/
theorem getDay_nextFriday (z : ℤ) : getDay (nextFriday z) = 5 := by
  unfold getDay nextFriday
  omega

/-- C8: every date returned by the expiration calendar is a Friday, its
days-to-expiry (the integer floor of the date difference from today that
the source computes — with today's time of day for the weekly candidates,
midnight for the monthly ones) lies in `[minDte, maxDte]`, and at most 3
dates are returned; this holds for every clock state and every month
calendar. -/
theorem expiration_calendar_spec (minDte maxDte todayDay : ℤ) (frac : ℚ)
    (monthStart : ℕ → ℤ) :
    (getExpirationDates minDte maxDte todayDay frac monthStart).length ≤ 3 ∧
    ∀ d ∈ getExpirationDates minDte maxDte todayDay frac monthStart,
      getDay d = 5 ∧
      ∃ dte : ℤ, (dte = jsFloor (((d : ℚ) + frac) - ((todayDay : ℚ) + frac)) ∨
        dte = jsFloor ((d : ℚ) - ((todayDay : ℚ) + frac))) ∧
        minDte ≤ dte ∧ dte ≤ maxDte := by
  constructor
  · unfold getExpirationDates
    rw [List.length_take]
    exact min_le_left _ _
  · intro d hd
    unfold getExpirationDates at hd
    have hd' := List.mem_of_mem_take hd
    rcases List.mem_append.mp hd' with hw | hm
    · obtain ⟨w, _, hw2⟩ := List.mem_filterMap.mp hw
      dsimp only at hw2
      split at hw2
      · injection hw2 with hw3
        subst hw3
        rename_i hcond
        exact ⟨getDay_nextFriday _, _, Or.inl rfl, hcond.1, hcond.2⟩
      · cases hw2
    · obtain ⟨w, _, hw2⟩ := List.mem_filterMap.mp hm
      dsimp only at hw2
      split at hw2
      · injection hw2 with hw3
        subst hw3
        rename_i hcond
        exact ⟨getDay_nextFriday _, _, Or.inr rfl, hcond.1, hcond.2⟩
      · cases hw2

unseal Rat.mul Rat.inv Rat.add Rat.sub Rat.ofScientific in
/-- Witness for `expiration_calendar_spec`: with today = day 0 and the
default window, day 36 is among the returned dates. -/
theorem expiration_calendar_witness :
    getDay 36 = 5 ∧
    ∃ dte : ℤ, (dte = jsFloor ((((36 : ℤ) : ℚ) + 0) - (((0 : ℤ) : ℚ) + 0)) ∨
      dte = jsFloor (((36 : ℤ) : ℚ) - (((0 : ℤ) : ℚ) + 0))) ∧
      30 ≤ dte ∧ dte ≤ 45 :=
  (expiration_calendar_spec 30 45 0 0 fixtureMonths).2 36 (by decide)

/-- Name of the Bull Put Spread record. -/
theorem bullPutSpread_name (e : ScanEnv) : (bullPutSpread e).name = "Bull Put Spread" := rfl

/-- Name of the Iron Condor record. -/
theorem ironCondor_name (e : ScanEnv) : (ironCondor e).name = "Iron Condor" := rfl

/-- Name of the Cash Secured Put record. -/
theorem cashSecuredPut_name (e : ScanEnv) : (cashSecuredPut e).name = "Cash Secured Put" := rfl

/-- Name of the Long Straddle record. -/
theorem longStraddle_name (e : ScanEnv) : (longStraddle e).name = "Long Straddle" := rfl

/-- Name of the Covered Call record. -/
theorem coveredCall_name (e : ScanEnv) : (coveredCall e).name = "Covered Call" := rfl

/-- Name of the Bear Call Spread record. -/
theorem bearCallSpread_name (e : ScanEnv) : (bearCallSpread e).name = "Bear Call Spread" := rfl

/-- Name of the Bull Call Spread record. -/
theorem bullCallSpread_name (e : ScanEnv) : (bullCallSpread e).name = "Bull Call Spread" := rfl

/-- Jitter product bound: a draw in `[0,1)` scaled by 5 stays in `[0,5)`. -/
theorem conf_jitter_bound {c : ℚ} (h0 : 0 ≤ c) (h1 : c < 1) :
    0 ≤ c * 5 ∧ c * 5 < 5 := by
  constructor
  · positivity
  · have := mul_lt_mul_of_pos_right h1 (by norm_num : (0 : ℚ) < 5)
    linarith

/-- C10: every synthesized strategy's confidence is a fixed per-strategy
base constant (72.5, 65.2, 69.8, 58.5, 66.7, 63.5 or 68.2) plus a scaled
uniform draw in `[0,5)`, hence lies in `[58.5, 77.5)`; consequently the
`moderate_aggressive` threshold 55 excludes nothing (the filter is the
identity on the catalog), and the Long Straddle's confidence is always
below 63.5. -/
theorem confidence_bounds (e : ScanEnv) (hJ : e.J.InRange) :
    (∀ s ∈ generateStrategies e,
      (∃ b : ℚ, (b = 72.5 ∨ b = 65.2 ∨ b = 69.8 ∨ b = 58.5 ∨ b = 66.7 ∨ b = 63.5 ∨
        b = 68.2) ∧ b ≤ s.confidence ∧ s.confidence < b + 5) ∧
      58.5 ≤ s.confidence ∧ s.confidence < 77.5 ∧ 55 ≤ s.confidence ∧
      (s.name = "Long Straddle" → s.confidence < 63.5)) ∧
    (generateStrategies e).filter (fun s => decide (55 ≤ s.confidence)) =
      generateStrategies e := by
  obtain ⟨-, hbp, -, hic, -, hcsp, -, hst, -, hcc, -, hbc, -, hblc, -⟩ := hJ
  have main : ∀ s ∈ generateStrategies e,
      (∃ b : ℚ, (b = 72.5 ∨ b = 65.2 ∨ b = 69.8 ∨ b = 58.5 ∨ b = 66.7 ∨ b = 63.5 ∨
        b = 68.2) ∧ b ≤ s.confidence ∧ s.confidence < b + 5) ∧
      58.5 ≤ s.confidence ∧ s.confidence < 77.5 ∧ 55 ≤ s.confidence ∧
      (s.name = "Long Straddle" → s.confidence < 63.5) := by
    intro s hs
    rcases (mem_generateStrategies e s).mp hs with ⟨-, rfl⟩ | ⟨-, rfl⟩ | rfl | rfl | rfl |
      ⟨-, rfl⟩ | ⟨-, rfl⟩
    · obtain ⟨hl, hu⟩ := conf_jitter_bound hbp.1 hbp.2
      have hcf : (bullPutSpread e).confidence = 72.5 + e.J.confBullPut * 5 := rfl
      exact ⟨⟨72.5, Or.inl rfl, by linarith, by linarith⟩, by linarith, by linarith,
        by linarith, fun hn => by rw [bullPutSpread_name] at hn; exact absurd hn (by decide)⟩
    · obtain ⟨hl, hu⟩ := conf_jitter_bound hic.1 hic.2
      have hcf : (ironCondor e).confidence = 65.2 + e.J.confIronCondor * 5 := rfl
      exact ⟨⟨65.2, Or.inr (Or.inl rfl), by linarith, by linarith⟩, by linarith, by linarith,
        by linarith, fun hn => by rw [ironCondor_name] at hn; exact absurd hn (by decide)⟩
    · obtain ⟨hl, hu⟩ := conf_jitter_bound hcsp.1 hcsp.2
      have hcf : (cashSecuredPut e).confidence = 69.8 + e.J.confCsp * 5 := rfl
      exact ⟨⟨69.8, Or.inr (Or.inr (Or.inl rfl)), by linarith, by linarith⟩, by linarith,
        by linarith, by linarith,
        fun hn => by rw [cashSecuredPut_name] at hn; exact absurd hn (by decide)⟩
    · obtain ⟨hl, hu⟩ := conf_jitter_bound hst.1 hst.2
      have hcf : (longStraddle e).confidence = 58.5 + e.J.confStraddle * 5 := rfl
      exact ⟨⟨58.5, Or.inr (Or.inr (Or.inr (Or.inl rfl))), by linarith, by linarith⟩,
        by linarith, by linarith, by linarith, fun _ => by linarith⟩
    · obtain ⟨hl, hu⟩ := conf_jitter_bound hcc.1 hcc.2
      have hcf : (coveredCall e).confidence = 66.7 + e.J.confCoveredCall * 5 := rfl
      exact ⟨⟨66.7, Or.inr (Or.inr (Or.inr (Or.inr (Or.inl rfl)))), by linarith, by linarith⟩,
        by linarith, by linarith, by linarith,
        fun hn => by rw [coveredCall_name] at hn; exact absurd hn (by decide)⟩
    · obtain ⟨hl, hu⟩ := conf_jitter_bound hbc.1 hbc.2
      have hcf : (bearCallSpread e).confidence = 63.5 + e.J.confBearCall * 5 := rfl
      exact ⟨⟨63.5, Or.inr (Or.inr (Or.inr (Or.inr (Or.inr (Or.inl rfl))))), by linarith,
        by linarith⟩, by linarith, by linarith, by linarith,
        fun hn => by rw [bearCallSpread_name] at hn; exact absurd hn (by decide)⟩
    · obtain ⟨hl, hu⟩ := conf_jitter_bound hblc.1 hblc.2
      have hcf : (bullCallSpread e).confidence = 68.2 + e.J.confBullCall * 5 := rfl
      exact ⟨⟨68.2, Or.inr (Or.inr (Or.inr (Or.inr (Or.inr (Or.inr rfl))))), by linarith,
        by linarith⟩, by linarith, by linarith, by linarith,
        fun hn => by rw [bullCallSpread_name] at hn; exact absurd hn (by decide)⟩
  refine ⟨main, List.filter_eq_self.mpr ?_⟩
  intro s hs
  exact decide_eq_true (main s hs).2.2.2.1

/-- Witness for `confidence_bounds` on the fixture invocation with zero
jitters. -/
theorem confidence_bounds_witness :
    (∀ s ∈ generateStrategies normalEnv,
      (∃ b : ℚ, (b = 72.5 ∨ b = 65.2 ∨ b = 69.8 ∨ b = 58.5 ∨ b = 66.7 ∨ b = 63.5 ∨
        b = 68.2) ∧ b ≤ s.confidence ∧ s.confidence < b + 5) ∧
      58.5 ≤ s.confidence ∧ s.confidence < 77.5 ∧ 55 ≤ s.confidence ∧
      (s.name = "Long Straddle" → s.confidence < 63.5)) ∧
    (generateStrategies normalEnv).filter (fun s => decide (55 ≤ s.confidence)) =
      generateStrategies normalEnv :=
  confidence_bounds normalEnv (by norm_num [Jitters.InRange, normalEnv, zeroJitters])

/-- The fixture pricer satisfies the definedness condition. -/
theorem constPricer_defined : PricerDefined constPricer := by
  intro i S K T iv r c
  rfl

/-- C9 (amended): provided the spot price is positive, the expiration
calendar for the window is nonempty (so the DTE is well-defined) and the
pricing routine returns well-defined prices on well-defined inputs, a Bull
Put Spread appears in the synthesizer output exactly when its net credit
(short-put premium minus long-put premium) exceeds 0.05, and a Bear Call
Spread exactly when its net credit exceeds 0.05; every produced Bull Put
Spread and Bear Call Spread then has net credit over 0.05 and positive
`maxProfit`.  With an empty calendar the Bull Put inclusion test
`!(credit <= 0.05)` passes on an undefined credit, breaking the
only-if direction (see `bull_put_included_with_nan_credit`). -/
theorem credit_spread_inclusion (e : ScanEnv) (hS : 0 < e.currentPrice)
    (hP : PricerDefined e.P) (hne : e.expirations ≠ []) :
    ((∃ s ∈ generateStrategies e, s.name = "Bull Put Spread") ↔
      ogtB (bullPutCredit e) (some 0.05) = true) ∧
    ((∃ s ∈ generateStrategies e, s.name = "Bear Call Spread") ↔
      ogtB (bearCallCredit e) (some 0.05) = true) ∧
    (∀ s ∈ generateStrategies e, s.name = "Bull Put Spread" →
      ∃ c, bullPutCredit e = some c ∧ 0.05 < c ∧ ∃ m, s.maxProfit = some m ∧ 0 < m) ∧
    (∀ s ∈ generateStrategies e, s.name = "Bear Call Spread" →
      ∃ c, bearCallCredit e = some c ∧ 0.05 < c ∧ ∃ m, s.maxProfit = some m ∧ 0 < m) := by
  obtain ⟨x, hx⟩ := Option.isSome_iff_exists.mp (List.head?_isSome.mpr hne)
  have hdte : e.dte = some (jsFloor ((x : ℚ) - e.now)) := by
    unfold ScanEnv.dte ScanEnv.primaryExpiry
    rw [hx]
    rfl
  obtain ⟨k0, hk0, -⟩ := bullPutShortStrike_spec hS
  obtain ⟨k1, hk1, -⟩ := bullPutLongStrike_spec hS
  obtain ⟨k10, hk10, -⟩ := bearCallShortStrike_spec hS
  obtain ⟨k11, hk11, -⟩ := bearCallLongStrike_spec hS
  have hq0 : ((shortPutPrice e).price).isSome = true := by
    show ((e.P 0 e.currentPrice (bullPutShortStrike e.currentPrice)
      e.dte e.iv 0.05 false).price).isSome = true
    rw [hk0, hdte]
    exact hP 0 e.currentPrice k0 (jsFloor ((x : ℚ) - e.now)) e.iv 0.05 false
  obtain ⟨p0, hp0⟩ := Option.isSome_iff_exists.mp hq0
  have hq1 : ((longPutPrice e).price).isSome = true := by
    show ((e.P 1 e.currentPrice (bullPutLongStrike e.currentPrice)
      e.dte e.iv 0.05 false).price).isSome = true
    rw [hk1, hdte]
    exact hP 1 e.currentPrice k1 (jsFloor ((x : ℚ) - e.now)) e.iv 0.05 false
  obtain ⟨p1, hp1⟩ := Option.isSome_iff_exists.mp hq1
  have hq10 : ((bearCallShort e).price).isSome = true := by
    show ((e.P 10 e.currentPrice (bearCallShortStrike e.currentPrice)
      e.dte e.iv 0.05 true).price).isSome = true
    rw [hk10, hdte]
    exact hP 10 e.currentPrice k10 (jsFloor ((x : ℚ) - e.now)) e.iv 0.05 true
  obtain ⟨p10, hp10⟩ := Option.isSome_iff_exists.mp hq10
  have hq11 : ((bearCallLong e).price).isSome = true := by
    show ((e.P 11 e.currentPrice (bearCallLongStrike e.currentPrice)
      e.dte e.iv 0.05 true).price).isSome = true
    rw [hk11, hdte]
    exact hP 11 e.currentPrice k11 (jsFloor ((x : ℚ) - e.now)) e.iv 0.05 true
  obtain ⟨p11, hp11⟩ := Option.isSome_iff_exists.mp hq11
  have hbp : bullPutCredit e = some (p0 - p1) := by
    unfold bullPutCredit
    rw [hp0, hp1]
    rfl
  have hbc : bearCallCredit e = some (p10 - p11) := by
    unfold bearCallCredit
    rw [hp10, hp11]
    rfl
  have hmaxP : ∀ c : ℚ, 0.05 < c →
      ∃ m : ℚ, oround (omul (some c) (some 100)) = some m ∧ 0 < m := by
    intro c hc
    refine ⟨((jsRound (c * 100) : ℤ) : ℚ), rfl, ?_⟩
    have h1 : (1 : ℤ) ≤ jsRound (c * 100) := by
      unfold jsRound
      apply Rat.le_floor.mpr
      push_cast
      nlinarith
    have : (0 : ℤ) < jsRound (c * 100) := by omega
    exact_mod_cast this
  refine ⟨?_, ?_, ?_, ?_⟩
  · constructor
    · rintro ⟨s, hs, hname⟩
      rcases (mem_generateStrategies e s).mp hs with ⟨hc, rfl⟩ | ⟨-, rfl⟩ | rfl | rfl | rfl |
        ⟨-, rfl⟩ | ⟨-, rfl⟩
      · rw [hbp] at hc ⊢
        simp only [oleB, decide_eq_false_iff_not, not_le] at hc
        simp only [ogtB, decide_eq_true_eq]
        exact hc
      · rw [ironCondor_name] at hname; exact absurd hname (by decide)
      · rw [cashSecuredPut_name] at hname; exact absurd hname (by decide)
      · rw [longStraddle_name] at hname; exact absurd hname (by decide)
      · rw [coveredCall_name] at hname; exact absurd hname (by decide)
      · rw [bearCallSpread_name] at hname; exact absurd hname (by decide)
      · rw [bullCallSpread_name] at hname; exact absurd hname (by decide)
    · intro hgt
      rw [hbp] at hgt
      simp only [ogtB, decide_eq_true_eq] at hgt
      refine ⟨bullPutSpread e, ?_, rfl⟩
      apply (mem_generateStrategies e (bullPutSpread e)).mpr
      refine Or.inl ⟨?_, rfl⟩
      rw [hbp]
      simp only [oleB, decide_eq_false_iff_not, not_le]
      exact hgt
  · constructor
    · rintro ⟨s, hs, hname⟩
      rcases (mem_generateStrategies e s).mp hs with ⟨-, rfl⟩ | ⟨-, rfl⟩ | rfl | rfl | rfl |
        ⟨hc, rfl⟩ | ⟨-, rfl⟩
      · rw [bullPutSpread_name] at hname; exact absurd hname (by decide)
      · rw [ironCondor_name] at hname; exact absurd hname (by decide)
      · rw [cashSecuredPut_name] at hname; exact absurd hname (by decide)
      · rw [longStraddle_name] at hname; exact absurd hname (by decide)
      · rw [coveredCall_name] at hname; exact absurd hname (by decide)
      · exact hc
      · rw [bullCallSpread_name] at hname; exact absurd hname (by decide)
    · intro hgt
      refine ⟨bearCallSpread e, ?_, rfl⟩
      apply (mem_generateStrategies e (bearCallSpread e)).mpr
      exact Or.inr (Or.inr (Or.inr (Or.inr (Or.inr (Or.inl ⟨hgt, rfl⟩)))))
  · intro s hs hname
    rcases (mem_generateStrategies e s).mp hs with ⟨hc, rfl⟩ | ⟨-, rfl⟩ | rfl | rfl | rfl |
      ⟨-, rfl⟩ | ⟨-, rfl⟩
    · rw [hbp] at hc
      simp only [oleB, decide_eq_false_iff_not, not_le] at hc
      obtain ⟨m, hm, hmpos⟩ := hmaxP (p0 - p1) hc
      refine ⟨p0 - p1, hbp, hc, m, ?_, hmpos⟩
      show oround (omul (bullPutCredit e) (some 100)) = some m
      rw [hbp]
      exact hm
    · rw [ironCondor_name] at hname; exact absurd hname (by decide)
    · rw [cashSecuredPut_name] at hname; exact absurd hname (by decide)
    · rw [longStraddle_name] at hname; exact absurd hname (by decide)
    · rw [coveredCall_name] at hname; exact absurd hname (by decide)
    · rw [bearCallSpread_name] at hname; exact absurd hname (by decide)
    · rw [bullCallSpread_name] at hname; exact absurd hname (by decide)
  · intro s hs hname
    rcases (mem_generateStrategies e s).mp hs with ⟨-, rfl⟩ | ⟨-, rfl⟩ | rfl | rfl | rfl |
      ⟨hc, rfl⟩ | ⟨-, rfl⟩
    · rw [bullPutSpread_name] at hname; exact absurd hname (by decide)
    · rw [ironCondor_name] at hname; exact absurd hname (by decide)
    · rw [cashSecuredPut_name] at hname; exact absurd hname (by decide)
    · rw [longStraddle_name] at hname; exact absurd hname (by decide)
    · rw [coveredCall_name] at hname; exact absurd hname (by decide)
    · rw [hbc] at hc
      simp only [ogtB, decide_eq_true_eq] at hc
      obtain ⟨m, hm, hmpos⟩ := hmaxP (p10 - p11) hc
      refine ⟨p10 - p11, hbc, hc, m, ?_, hmpos⟩
      show oround (omul (bearCallCredit e) (some 100)) = some m
      rw [hbc]
      exact hm
    · rw [bullCallSpread_name] at hname; exact absurd hname (by decide)

unseal Rat.mul Rat.inv Rat.add Rat.sub Rat.ofScientific List.merge List.mergeSort in
/-- Witness for `credit_spread_inclusion` on the fixture invocation (the
hypotheses hold: positive spot, nonempty calendar, defined pricer). -/
theorem credit_spread_inclusion_witness :
    ((∃ s ∈ generateStrategies normalEnv, s.name = "Bull Put Spread") ↔
      ogtB (bullPutCredit normalEnv) (some 0.05) = true) ∧
    ((∃ s ∈ generateStrategies normalEnv, s.name = "Bear Call Spread") ↔
      ogtB (bearCallCredit normalEnv) (some 0.05) = true) ∧
    (∀ s ∈ generateStrategies normalEnv, s.name = "Bull Put Spread" →
      ∃ c, bullPutCredit normalEnv = some c ∧ 0.05 < c ∧
        ∃ m, s.maxProfit = some m ∧ 0 < m) ∧
    (∀ s ∈ generateStrategies normalEnv, s.name = "Bear Call Spread" →
      ∃ c, bearCallCredit normalEnv = some c ∧ 0.05 < c ∧
        ∃ m, s.maxProfit = some m ∧ 0 < m) :=
  credit_spread_inclusion normalEnv (by norm_num [normalEnv])
    (by intro i S K T iv r c; rfl) (by decide)

unseal Rat.mul Rat.inv Rat.add Rat.sub Rat.ofScientific List.merge List.mergeSort in
/-- C9 counterexample: on the empty-calendar fixture the Bull Put Spread
is included in the output although its net credit is NaN and does not
exceed 0.05 — the inclusion test is the negation of `credit <= 0.05`,
which a NaN credit passes. -/
theorem bull_put_included_with_nan_credit :
    (∃ s ∈ generateStrategies emptyCalEnv, s.name = "Bull Put Spread") ∧
    ogtB (bullPutCredit emptyCalEnv) (some 0.05) = false := by decide

/-- Call-side equation of `bsPrice`. -/
theorem bsPrice_call (S K T σ r : ℝ) :
    bsPrice S K T σ r true =
      S * cdf (d1 S K T σ r) - K * Real.exp (-r * T) * cdf (d2 S K T σ r) := rfl

/-- Put-side equation of `bsPrice`. -/
theorem bsPrice_put (S K T σ r : ℝ) :
    bsPrice S K T σ r false =
      K * Real.exp (-r * T) * cdf (-d2 S K T σ r) - S * cdf (-d1 S K T σ r) := rfl

/-- Oddness of the `erf` approximation away from 0: the sign flip makes
`erf (-x) = -erf x` for every nonzero `x` (at `x = 0` the approximation
returns `1e-9`, not `0`, because the five Abramowitz-Stegun coefficients
sum to `0.999999999`). -/
theorem erf_neg_eq (x : ℝ) (hx : x ≠ 0) : erf (-x) = - erf x := by
  rcases hx.lt_or_lt with hlt | hlt
  · simp only [erf, abs_neg]
    rw [if_pos (by linarith : (0 : ℝ) ≤ -x), if_neg (not_le.mpr hlt)]
    ring
  · simp only [erf, abs_neg]
    rw [if_neg (not_le.mpr (by linarith : -x < 0)), if_pos hlt.le]
    ring

/-- The erf-based normal CDF satisfies `N(x) + N(-x) = 1` for `x ≠ 0`. -/
theorem cdf_add_neg (x : ℝ) (hx : x ≠ 0) : cdf x + cdf (-x) = 1 := by
  have h2 : Real.sqrt 2 ≠ 0 := by positivity
  have hdiv : (-x) / Real.sqrt 2 = -(x / Real.sqrt 2) := by ring
  have hx2 : x / Real.sqrt 2 ≠ 0 := div_ne_zero hx h2
  simp only [cdf, hdiv, erf_neg_eq _ hx2]
  ring

/-- C5 (amended): for every input with `d1 ≠ 0` and `d2 ≠ 0` (at
`T = daysToExpiry/365`), the call and put prices computed before the random
market adjustment satisfy put-call parity exactly:
`call - put = S - K*exp(-r*T)`.  When `d1 = 0` or `d2 = 0` the identity
fails, because the erf approximation is not odd at 0 (see
`put_call_parity_fails_at_zero_d2`). -/
theorem put_call_parity_off_zero (S K dte σ r : ℝ)
    (h1 : d1 S K (dte / 365) σ r ≠ 0) (h2 : d2 S K (dte / 365) σ r ≠ 0) :
    bsPrice S K (dte / 365) σ r true - bsPrice S K (dte / 365) σ r false =
      S - K * Real.exp (-r * (dte / 365)) := by
  have hA := cdf_add_neg _ h1
  have hB := cdf_add_neg _ h2
  rw [bsPrice_call, bsPrice_put]
  linear_combination S * hA - (K * Real.exp (-r * (dte / 365))) * hB

/-- Witness for `put_call_parity_off_zero` at `S = K = 100`, `dte = 365`,
`σ = 0.25`, `r = 0.05`, where `d1 = 0.325` and `d2 = 0.075`. -/
theorem put_call_parity_witness :
    bsPrice 100 100 ((365 : ℝ) / 365) 0.25 0.05 true -
      bsPrice 100 100 ((365 : ℝ) / 365) 0.25 0.05 false =
      100 - 100 * Real.exp (-(0.05) * ((365 : ℝ) / 365)) :=
  put_call_parity_off_zero 100 100 365 0.25 0.05
    (by norm_num [d1, Real.sqrt_one, Real.log_one])
    (by norm_num [d2, d1, Real.sqrt_one, Real.log_one])

/-- C5 counterexample: at `S = K = 100`, `daysToExpiry = 365`, `σ = 0.1`,
`r = 0.005` (all in the claimed domain `S,K,dte,σ > 0`) we get `d2 = 0`,
and the parity identity fails: the pre-adjustment call and put prices
differ from `S - K*exp(-rT)` by `-K*exp(-rT)*1e-9`, because
`N(0) + N(-0) = 1 + erf 0 = 1 + 1e-9 ≠ 1`. -/
theorem put_call_parity_fails_at_zero_d2 :
    bsPrice 100 100 ((365 : ℝ) / 365) 0.1 0.005 true -
      bsPrice 100 100 ((365 : ℝ) / 365) 0.1 0.005 false ≠
      100 - 100 * Real.exp (-(0.005) * ((365 : ℝ) / 365)) := by
  have hT : ((365 : ℝ) / 365) = 1 := by norm_num
  rw [hT]
  have hd1 : d1 100 100 1 0.1 0.005 = 0.1 := by
    norm_num [d1, Real.sqrt_one, Real.log_one]
  have hd2 : d2 100 100 1 0.1 0.005 = 0 := by
    simp only [d2]
    rw [hd1, Real.sqrt_one]
    norm_num
  have hodd := cdf_add_neg (0.1 : ℝ) (by norm_num)
  have herf0 : erf 0 = 0.000000001 := by
    norm_num [erf, Real.exp_zero]
  have hcdf0 : cdf 0 = 0.5 * (1 + 0.000000001) := by
    rw [cdf, zero_div, herf0]
  have hexp : 0 < Real.exp (-(0.005) * (1 : ℝ)) := Real.exp_pos _
  rw [bsPrice_call, bsPrice_put, hd1, hd2, neg_zero, hcdf0]
  intro heq
  have hc : cdf (-(0.1 : ℝ)) = 1 - cdf 0.1 := by linarith
  rw [hc] at heq
  nlinarith [heq, hexp]

end OptionsScan
